import Mathlib

/-!
Verification of the combinatorial filter-statistics engine of the
Historic Coastal Landfills utilities
(`projects/source/utilities/python/hcl_utilities/hcl_math/combinations.py`
and its collaborators).  Python lists/tuples are modelled as Lean lists,
pandas DataFrames as a column-name list plus a row list, Python dicts as
insertion-ordered association lists, and raised exceptions as
`Except String` errors.  Module-level globals that are read from the
environment (the Excel schema, the criteria list) become explicit
parameters; external I/O collaborators (data loading, worksheet saving)
are externalized: the loaded frame is a parameter and the side-effecting
calls are recorded as pipeline events.
-/

/-- The module-level constant `WASTE_FILTRATION_CRITERIA` from
`hcl_constants/constants.py`. -/
def WASTE_FILTRATION_CRITERIA : List String :=
  ["Inert Waste", "Industrial Waste", "Commercial Waste", "Household Waste",
   "Special / hazardous Waste", "Liquid / sludge Waste", "Waste unknown",
   "Gas control", "Leachate containment", "Buffer point"]

/-- `itertools.combinations l r`: every `r`-element subsequence of `l`, in
lexicographic order of source positions (tuples containing the head come
first), exactly as iterated by the Python generator. -/
def combinations {α : Type} : List α → Nat → List (List α)
  | _, 0 => [[]]
  | [], _ + 1 => []
  | x :: xs, r + 1 => ((combinations xs r).map (x :: ·)) ++ combinations xs (r + 1)

/-- `itertools.permutations` with the tuple length `r` first: every
`r`-tuple of elements of `l` drawn at pairwise distinct positions, in
lexicographic order of the position sequences. -/
def permutations {α : Type} : Nat → List α → List (List α)
  | 0, _ => [[]]
  | r + 1, l =>
      ((List.range l.length).map (fun i =>
        match l.get? i with
        | some a => (permutations r (l.eraseIdx i)).map (fun t => a :: t)
        | none => [])).flatten

/-- The `for indx in range(1, n + 1)` loop shared by both generator
functions: the order-`indx` combinations of `l`, for `indx = 1..n`. -/
def multiOrderCombinations {α : Type} (n : Nat) (l : List α) : List (List (List α)) :=
  (List.range n).map (fun i => combinations l (i + 1))

/-- The corresponding loop of the permutation generator. -/
def multiOrderPermutations {α : Type} (n : Nat) (l : List α) : List (List (List α)) :=
  (List.range n).map (fun i => permutations (i + 1) l)

/-- `get_filter_combinations_criteria_multiple_orders` from
`combinations.py` (lines 70-113).  The Python function closes over the
module globals `WASTE_CRITERIA_COL_INDICES_NUM`,
`WASTE_CRITERIA_COL_INDICES_CHAR` and `WASTE_FILTRATION_CRITERIA`; these
become the parameters `nums`, `chars` and `criteria`.  The loop bound is
the length of the criteria list, and the function returns the numeric
column-index combinations, the column-letter combinations and the
criteria-name combinations, in that order. -/
def get_filter_combinations_criteria_multiple_orders
    (criteria : List String) (nums : List Nat) (chars : List String) :
    List (List (List Nat)) × List (List (List String)) × List (List (List String)) :=
  (multiOrderCombinations criteria.length nums,
   multiOrderCombinations criteria.length chars,
   multiOrderCombinations criteria.length criteria)

/-- `get_filter_permutations_criteria_multiple_orders` from
`combinations.py` (lines 116-157), parametrized the same way. -/
def get_filter_permutations_criteria_multiple_orders
    (criteria : List String) (nums : List Nat) (chars : List String) :
    List (List (List Nat)) × List (List (List String)) × List (List (List String)) :=
  (multiOrderPermutations criteria.length nums,
   multiOrderPermutations criteria.length chars,
   multiOrderPermutations criteria.length criteria)

/-- A pandas DataFrame, modelled as its ordered column-header list plus its
rows, each row a list of cell values in column order. -/
structure DataFrame where
  columns : List String
  rows : List (List String)
deriving Repr, DecidableEq

/-- Cell access by column name: the positional value of the row at the index
of the (first) matching column header, as pandas resolves a column label. -/
def cellValue (cols : List String) (row : List String) (c : String) : Option String :=
  match cols.findIdx? (· == c) with
  | some i => row.get? i
  | none => none

/-- The `filter_counts` component of the matcher output: one dict per order,
mapping each criterion combination to its row count (insertion-ordered
association list). -/
abbrev CombCounts := List (List (List String × Nat))

/-- The `site_ref_nums` component of the matcher output: one dict per order,
mapping each criterion combination to the HLD references of its rows. -/
abbrev CombRefs := List (List (List String × List String))

/-- The pair returned by `get_filter_criteria_counts`. -/
abbrev MatcherOut := CombCounts × CombRefs

instance combCountsDecEq : DecidableEq CombCounts := inferInstance

instance combRefsDecEq : DecidableEq CombRefs := inferInstance

instance matcherOutDecEq : DecidableEq MatcherOut := instDecidableEqProd

/-- The one-hot frame of `get_filter_criteria_counts` (combinations.py lines
268-269): per row, each criterion column compared with the literal string
"Yes" and encoded as 1/0 (keyed by criterion name, as pandas selects columns
by label), together with the row's "HLD reference" cell. -/
def oneHotRows (criteria : List String) (df : DataFrame) :
    List (List (String × Nat) × String) :=
  df.rows.map (fun row =>
    (criteria.map (fun c =>
        (c, if cellValue df.columns row c == some "Yes" then 1 else 0)),
     (cellValue df.columns row "HLD reference").getD ""))

/-- The row mask for one combination (combinations.py lines 288-289): the
selected one-hot columns are compared with 1 and reduced with
`all(axis=1)`. -/
def combMatches (ohRow : List (String × Nat)) (comb : List String) : Bool :=
  comb.all (fun c => (ohRow.lookup c).getD 0 == 1)

/-- Count and reference list for one combination (combinations.py lines
288-303): the masked frame's row count and its "HLD reference" column. -/
def matchComb (ohRows : List (List (String × Nat) × String)) (comb : List String) :
    Nat × List String :=
  ((ohRows.filter (fun r => combMatches r.1 comb)).length,
   (ohRows.filter (fun r => combMatches r.1 comb)).map (fun r => r.2))

/-- `get_filter_criteria_counts` from combinations.py (lines 225-305),
parametrized by the module global `WASTE_FILTRATION_CRITERIA`.  Selecting a
column absent from the frame raises a pandas `KeyError`, modelled as an
`Except.error`; the guards mirror the selections at lines 268 (criteria
columns), 269 ("HLD reference") and 288 (the combination's columns inside
the one-hot frame, whose columns are the criteria). -/
def get_filter_criteria_counts (criteria : List String) (df : DataFrame)
    (combs : List (List (List String))) : Except String MatcherOut :=
  if criteria.all (fun c => df.columns.contains c) = false then
    .error "KeyError: waste filtration criteria column missing from dataframe"
  else if df.columns.contains "HLD reference" = false then
    .error "KeyError: column HLD reference missing from dataframe"
  else if combs.all (fun order => order.all (fun comb =>
      comb.all (fun c => criteria.contains c))) = false then
    .error "KeyError: combination column missing from one-hot frame"
  else
    .ok (combs.map (fun order => order.map (fun comb =>
          (comb, (matchComb (oneHotRows criteria df) comb).1))),
         combs.map (fun order => order.map (fun comb =>
          (comb, (matchComb (oneHotRows criteria df) comb).2))))

/-- The reference predicate for C4: the row's cell equals the literal string
"Yes" (case-sensitive, no trimming) in every criterion column of the
combination. -/
def rowAllYes (cols : List String) (row : List String) (comb : List String) : Bool :=
  comb.all (fun c => cellValue cols row c == some "Yes")

/-- The "HLD reference" cell of a row. -/
def hldRefOf (cols : List String) (row : List String) : String :=
  (cellValue cols row "HLD reference").getD ""

deriving instance DecidableEq for Except

/-- `check_site_totals` from combinations.py (lines 409-417): flatten every
reference list across orders and combinations and assert that the number of
distinct identifiers does not exceed the frame's row count.  A failing
Python `assert` is modelled as an error. -/
def check_site_totals (df : DataFrame) (refNums : CombRefs) : Except String Unit :=
  if ((refNums.map (fun order => (order.map (fun p => p.2)).flatten)).flatten).dedup.length
      ≤ df.rows.length then .ok ()
  else .error "AssertionError: site totals exceed available sites"

/-- `numpy.unique` over a collected set of references (combinations.py lines
349-359): the distinct values, sorted ascending (lexicographically by
character sequence, stated on `String.data` so that the order evaluates). -/
def uniqueSorted (l : List String) : List String :=
  l.dedup.insertionSort (fun a b => a.data < b.data ∨ a = b)

/-- A Python `set` under `update`/iteration, determinized: unseen elements
are appended in first-appearance order.  Only membership and size of the
running set are ever consumed. -/
def dedupUnion (acc l : List String) : List String :=
  l.foldl (fun a x => if x ∈ a then a else a ++ [x]) acc

/-- One row of the output statistics table, with the fields of
`STATS_DF_OUTPUT_COLS` (combinations.py lines 56-67) in schema order.
Python serializes the composite values with `str()` just before the Excel
write; the lists are kept unstringified here, their string forms carrying
no further information. -/
structure StatsRecord where
  experimentIndex : Nat
  primaryFilter : String
  wasteFilterCriteria : List String
  filterOrder : Nat
  numSites : Nat
  siteRefNums : List String
  numUniqueSiteRefsPerOrder : Nat
  siteRefNumsPerOrder : List String
  totalNumUniqueSiteRefs : Nat
  totalUniqueSiteRefNums : List String
deriving Repr, DecidableEq

/-- The inner record loop of `construct_count_statistics_dataframe`
(combinations.py lines 383-404): one output row per combination of the
current (scope, order), sharing that pair's deduplicated reference fields
and the grand set as already updated for this order, with the experiment
index incremented per row. -/
def buildCombinationRecords (scopeName : String) (filterOrder : Nat)
    (orderCounts : List (List String × Nat)) (orderRefs : List (List String × List String))
    (perOrder : List String) (grand : List String) (expIdx : Nat) : List StatsRecord :=
  match orderCounts with
  | [] => []
  | (comb, n) :: rest =>
      { experimentIndex := expIdx
        primaryFilter := scopeName
        wasteFilterCriteria := comb
        filterOrder := filterOrder
        numSites := n
        siteRefNums := (orderRefs.lookup comb).getD []
        numUniqueSiteRefsPerOrder := perOrder.length
        siteRefNumsPerOrder := perOrder
        totalNumUniqueSiteRefs := grand.length
        totalUniqueSiteRefNums := grand } ::
        buildCombinationRecords scopeName filterOrder rest orderRefs perOrder grand (expIdx + 1)

/-- The per-order loop of `construct_count_statistics_dataframe`
(combinations.py lines 335-404): `zip` the per-order count dicts with the
per-order reference dicts, build the (scope, order) deduplicated reference
list (set union of that order's reference lists, then `numpy.unique`),
merge it into the running grand set, and emit the records. -/
def buildScopeOrders (scopeName : String) (orderIdx : Nat) (counts : CombCounts)
    (refs : CombRefs) (expIdx : Nat) (grand : List String) :
    List StatsRecord × Nat × List String :=
  match counts, refs with
  | orderCounts :: cs, orderRefs :: rs =>
      let perOrder := uniqueSorted ((orderRefs.map (fun p => p.2)).flatten)
      let grand1 := dedupUnion grand perOrder
      let recs := buildCombinationRecords scopeName (orderIdx + 1) orderCounts orderRefs
        perOrder grand1 expIdx
      let rest := buildScopeOrders scopeName (orderIdx + 1) cs rs
        (expIdx + orderCounts.length) grand1
      (recs ++ rest.1, rest.2.1, rest.2.2)
  | _, _ => ([], expIdx, grand)

/-- The outer scope loop of `construct_count_statistics_dataframe`
(combinations.py lines 326-404): iterate the statistics dict in insertion
order, threading the running experiment index and the grand reference set
(which, per lines 322 and 360, is initialized once and never reset between
scopes). -/
def buildScopes (dict : List (String × MatcherOut)) (expIdx : Nat) (grand : List String) :
    List StatsRecord × Nat × List String :=
  match dict with
  | [] => ([], expIdx, grand)
  | (name, out) :: rest =>
      let own := buildScopeOrders name 0 out.1 out.2 expIdx grand
      let others := buildScopes rest own.2.1 own.2.2
      (own.1 ++ others.1, others.2.1, others.2.2)

/-- `construct_count_statistics_dataframe` from combinations.py (lines
308-406): the flattened statistics table, starting from experiment index 1
and an empty grand reference set. -/
def construct_count_statistics_dataframe (dict : List (String × MatcherOut)) :
    List StatsRecord :=
  (buildScopes dict 1 []).1

/-- Observable collaborator calls made by
`get_count_statistics_filter_criteria`, in call order: the permutation
enumeration (carrying how many permuted tuples it produced), the data load
(`load_initial_filtered_data`), the statistics computation over the scopes,
and the Excel worksheet save. -/
inductive PipelineEvent
  | permutationEnumeration (totalPermutations : Nat)
  | dataLoad
  | statisticsComputation
  | worksheetSave
deriving Repr, DecidableEq

/-- Python dict assignment `d[k] = v`: overwrite in place when the key
exists, append otherwise (dicts preserve insertion order). -/
def dictInsert {V : Type} (d : List (String × V)) (k : String) (v : V) :
    List (String × V) :=
  if d.any (fun p => p.1 == k) then
    d.map (fun p => if p.1 == k then (k, v) else p)
  else d ++ [(k, v)]

/-- Row restriction by an exact cell match on one column,
`df[df[c] == v]`. -/
def dfFilterEq (df : DataFrame) (c v : String) : DataFrame :=
  DataFrame.mk df.columns
    (df.rows.filter (fun row => cellValue df.columns row c == some v))

/-- Row restriction to rows whose every listed column equals "Yes",
`df[(df[cols] == "Yes").all(axis=1)]` (combinations.py lines 568-572). -/
def dfFilterAllYes (df : DataFrame) (cols : List String) : DataFrame :=
  DataFrame.mk df.columns
    (df.rows.filter (fun row =>
      cols.all (fun c => cellValue df.columns row c == some "Yes")))

/-- The aggregator's result: the statistics dict
`filter_criteria_combinations_counts_dict` keying each scope name to its
matcher output, and the flattened statistics table built from it. -/
structure AggResult where
  countsDict : List (String × MatcherOut)
  statsRecords : List StatsRecord
deriving Repr, DecidableEq

/-- The primary-scope loop of `get_count_statistics_filter_criteria`
(combinations.py lines 525-539).  The restriction column is the global name
`on_and_adjacent_ce_property_filter_column_name` — bound only by the
script's `__main__` block, hence an `Option` resolved at each iteration; an
unbound name raises `NameError`.  The loop threads the primary data dict
and the statistics dict. -/
def primaryLoop (criteria : List String) (globalPrimaryCol : Option String)
    (hld_df : DataFrame) (combs : List (List (List String))) :
    List (String × String) → List (String × DataFrame) → List (String × MatcherOut) →
    Except String (List (String × DataFrame) × List (String × MatcherOut))
  | [], dataDict, countsDict => .ok (dataDict, countsDict)
  | (fname, fcrit) :: rest, dataDict, countsDict =>
      match globalPrimaryCol with
      | none => .error
          "NameError: name on_and_adjacent_ce_property_filter_column_name is not defined"
      | some pcol =>
          if hld_df.columns.contains pcol = false then
            .error "KeyError: primary filter column missing from dataframe"
          else
            match get_filter_criteria_counts criteria
                (dfFilterEq hld_df pcol fcrit) combs with
            | .error e => .error e
            | .ok out =>
                match check_site_totals (dfFilterEq hld_df pcol fcrit) out.2 with
                | .error e => .error e
                | .ok _ =>
                    primaryLoop criteria globalPrimaryCol hld_df combs rest
                      (dictInsert dataDict fname (dfFilterEq hld_df pcol fcrit))
                      (dictInsert countsDict fname out)

/-- One composed scope of the secondary loop (combinations.py lines
549-572): for `filterIndex < len(secondary)` the single-secondary
restriction named "<scope> + <secondary>", otherwise the all-secondary
conjunction whose name hardcodes the first two secondary names
(`secondary_filter_criteria_names[0]` and `[1]`, an `IndexError` when fewer
than two exist).  Secondary pairs are (display name, column name); the
comparison value is the literal "Yes". -/
def secondaryScopeStep (secondary : List (String × String)) (filterIndex : Nat)
    (pname : String) (pdata : DataFrame) : Except String (String × DataFrame) :=
  match secondary.get? filterIndex with
  | some sp =>
      if pdata.columns.contains sp.2 = false then
        .error "KeyError: secondary filter column missing from dataframe"
      else .ok (pname ++ " + " ++ sp.1, dfFilterEq pdata sp.2 "Yes")
  | none =>
      match secondary.get? 0, secondary.get? 1 with
      | some s0, some s1 =>
          if (secondary.all (fun p => pdata.columns.contains p.2)) = false then
            .error "KeyError: secondary filter column missing from dataframe"
          else
            .ok (pname ++ " + " ++ s0.1 ++ " + " ++ s1.1,
                 dfFilterAllYes pdata (secondary.map (fun p => p.2)))
      | _, _ => .error "IndexError: tuple index out of range"

/-- The inner scope iteration of the secondary loop (combinations.py lines
544-583): one composed scope per entry of the primary data dict — which
contains the root frame as well — with matcher, sanity check and dict
insert. -/
def secondaryInnerLoop (criteria : List String) (combs : List (List (List String)))
    (secondary : List (String × String)) (filterIndex : Nat) :
    List (String × DataFrame) → List (String × MatcherOut) →
    Except String (List (String × MatcherOut))
  | [], countsDict => .ok countsDict
  | (pname, pdata) :: rest, countsDict =>
      match secondaryScopeStep secondary filterIndex pname pdata with
      | .error e => .error e
      | .ok nt =>
          match get_filter_criteria_counts criteria nt.2 combs with
          | .error e => .error e
          | .ok out =>
              match check_site_totals nt.2 out.2 with
              | .error e => .error e
              | .ok _ =>
                  secondaryInnerLoop criteria combs secondary filterIndex rest
                    (dictInsert countsDict nt.1 out)

/-- The outer `for filter_index in range(len(secondary) + 1)` loop of the
secondary phase (combinations.py line 543). -/
def secondaryOuterLoop (criteria : List String) (combs : List (List (List String)))
    (secondary : List (String × String)) (dataDict : List (String × DataFrame)) :
    List Nat → List (String × MatcherOut) → Except String (List (String × MatcherOut))
  | [], countsDict => .ok countsDict
  | i :: rest, countsDict =>
      match secondaryInnerLoop criteria combs secondary i dataDict countsDict with
      | .error e => .error e
      | .ok cd => secondaryOuterLoop criteria combs secondary dataDict rest cd

/-- The statistics phase of `get_count_statistics_filter_criteria`
(combinations.py lines 510-587): root matcher run and sanity check, the
root entry "# Sites relevant CE" seeded into both dicts, the primary loop,
the secondary loop over the data dict (root included), and the report
build. -/
def runAggregation (criteria : List String) (globalPrimaryCol : Option String)
    (hld_df : DataFrame) (primary secondary : List (String × String))
    (combs : List (List (List String))) : Except String AggResult :=
  match get_filter_criteria_counts criteria hld_df combs with
  | .error e => .error e
  | .ok rootOut =>
      match check_site_totals hld_df rootOut.2 with
      | .error e => .error e
      | .ok _ =>
          match primaryLoop criteria globalPrimaryCol hld_df combs primary
              [("# Sites relevant CE", hld_df)] [("# Sites relevant CE", rootOut)] with
          | .error e => .error e
          | .ok dicts =>
              match secondaryOuterLoop criteria combs secondary dicts.1
                  (List.range (secondary.length + 1)) dicts.2 with
              | .error e => .error e
              | .ok countsDict =>
                  .ok (AggResult.mk countsDict
                    (construct_count_statistics_dataframe countsDict))

/-- `get_count_statistics_filter_criteria` from combinations.py (lines
420-592).  The combination generation runs first (pure); unpacking the
primary/secondary filter pairs with `zip(*...)` raises `ValueError` on an
empty list; with `enable_permutation` set, the permutation generator is
invoked (recorded with the number of permuted criteria tuples it
enumerates) and `NotImplementedError` is raised before anything else runs.
Otherwise the frame is loaded (`load_initial_filtered_data`, an external
collaborator: `filter_column_name` is consumed only there, so the loaded
frame `hld_df` is a parameter here), statistics are computed across the
scopes, and the result is saved to the worksheet.  The event list records
the collaborator calls that were reached. -/
def get_count_statistics_filter_criteria (criteria : List String)
    (globalPrimaryCol : Option String) (hld_df : DataFrame)
    (filter_column_name : String) (primary secondary : List (String × String))
    (enable_permutation : Bool) : Except String AggResult × List PipelineEvent :=
  if primary.isEmpty then
    (.error "ValueError: not enough values to unpack", [])
  else if secondary.isEmpty then
    (.error "ValueError: not enough values to unpack", [])
  else if enable_permutation then
    (.error "NotImplementedError: Permutation operations are not currently supported yet.",
     [PipelineEvent.permutationEnumeration
        (((multiOrderPermutations criteria.length criteria).map List.length).sum)])
  else
    match runAggregation criteria globalPrimaryCol hld_df primary secondary
        (multiOrderCombinations criteria.length criteria) with
    | .error e =>
        (.error e, [PipelineEvent.dataLoad, PipelineEvent.statisticsComputation])
    | .ok res =>
        (.ok res, [PipelineEvent.dataLoad, PipelineEvent.statisticsComputation,
          PipelineEvent.worksheetSave])

/-- A Python value appearing as an argument at the module-initialization
call site of combinations.py lines 50-55. -/
inductive PyValue
  | strList (l : List String)
  | natList (l : List Nat)
deriving Repr, DecidableEq

/-- The parameter list of
`convert_useful_col_names_to_col_letters_and_indices` as defined in
`read_io/excel_io.py` (lines 81-83): exactly three parameters, no defaults,
no varargs. -/
def convertUsefulColNamesParams : List String :=
  ["col_headers", "col_letters", "col_indices"]

/-- Binding of positional arguments at a Python call: the interpreter
checks the arity before entering the function body and raises `TypeError`
on a mismatch. -/
def bindPositionalArgs (params : List String) (args : List PyValue) :
    Except String (List (String × PyValue)) :=
  if args.length = params.length then .ok (params.zip args)
  else .error "TypeError: positional argument count does not match parameter count"

/-- `WASTE_CRITERIA_COL_INDICES_NUM` (combinations.py lines 39-42):
`EXCEL_COL_INDICES[EXCEL_COL_HEADERS.index(criteria)]` per criterion —
`list.index` raises `ValueError` when absent, the subscript raises
`IndexError` when out of range. -/
def wasteCriteriaColIndicesNum (headers : List String) (indices : List Nat)
    (criteria : List String) : Except String (List Nat) :=
  criteria.mapM (fun c =>
    match headers.findIdx? (fun h => h == c) with
    | some i =>
        match indices.get? i with
        | some v => Except.ok v
        | none => Except.error "IndexError: list index out of range"
    | none => Except.error "ValueError: criterion is not in list")

/-- `CHECK_COLUMNS` (combinations.py line 44):
`EXCEL_COL_HEADERS[i]` for each numeric criteria column index. -/
def checkColumns (headers : List String) (idxNum : List Nat) :
    Except String (List String) :=
  idxNum.mapM (fun i =>
    match headers.get? i with
    | some h => Except.ok h
    | none => Except.error "IndexError: list index out of range")

/-- `WASTE_CRITERIA_COL_INDICES_CHAR` (combinations.py lines 47-49):
`EXCEL_COL_LETTERS[i]` for each numeric criteria column index. -/
def wasteCriteriaColIndicesChar (letters : List String) (idxNum : List Nat) :
    Except String (List String) :=
  idxNum.mapM (fun i =>
    match letters.get? i with
    | some ch => Except.ok ch
    | none => Except.error "IndexError: list index out of range")

/-- The import-time module initialization of combinations.py (lines 36-55),
parametrized by the environment: `headers`, `letters` and `indices` are
whatever `load_excel_column_headers` read from the dataset file, and
`usefulCols`/`criteria` are the configured constants.  After building the
numeric criteria indices, re-deriving `CHECK_COLUMNS` and asserting it
equals the criteria (numpy's `assert_array_equal`), and building the
column-letter list, lines 50-55 call
`convert_useful_col_names_to_col_letters_and_indices` with the four
positional arguments `USEFUL_COLS, EXCEL_COL_HEADERS, EXCEL_COL_LETTERS,
EXCEL_COL_INDICES`. -/
def combinations_module_init (headers letters : List String) (indices : List Nat)
    (usefulCols criteria : List String) : Except String (List Nat × List String) :=
  match wasteCriteriaColIndicesNum headers indices criteria with
  | .error e => .error e
  | .ok idxNum =>
      match checkColumns headers idxNum with
      | .error e => .error e
      | .ok checkCols =>
          if checkCols ≠ criteria then
            .error "AssertionError: arrays are not equal"
          else
            match wasteCriteriaColIndicesChar letters idxNum with
            | .error e => .error e
            | .ok idxChar =>
                match bindPositionalArgs convertUsefulColNamesParams
                    [PyValue.strList usefulCols, PyValue.strList headers,
                     PyValue.strList letters, PyValue.natList indices] with
                | .error e => .error e
                | .ok _ => .ok (idxNum, idxChar)

/-- The composed scope name generated at secondary filter index `i` for the
scope `pname` (combinations.py lines 549-567): for `i` within the secondary
list, "<scope> + <secondary name i>"; past the end (the conjunction pass),
the name chains exactly the first two secondary names. -/
def composedScopeName (secondary : List (String × String)) (i : Nat)
    (pname : String) : String :=
  match secondary.get? i with
  | some sp => pname ++ " + " ++ sp.1
  | none =>
      pname ++ " + " ++ (((secondary.get? 0).map (fun p => p.1)).getD "") ++ " + " ++
        (((secondary.get? 1).map (fun p => p.1)).getD "")

/-- The scope keys added by the secondary phase, in insertion order: for
each filter index `0..len(secondary)`, one composed scope per entry of the
primary data dict (the root scope "# Sites relevant CE" included). -/
def composedScopeKeys (primary secondary : List (String × String)) : List String :=
  ((List.range (secondary.length + 1)).map (fun i =>
    ("# Sites relevant CE" :: primary.map (fun p => p.1)).map
      (composedScopeName secondary i))).flatten

/-- All scope keys of the statistics dict of a successful aggregator run,
in insertion order: the root scope, the primary scopes, then the composed
scopes. -/
def expectedScopeKeys (primary secondary : List (String × String)) : List String :=
  "# Sites relevant CE" :: primary.map (fun p => p.1) ++
    composedScopeKeys primary secondary

/-- Whether an `Except` value is a success (used to state witnesses without
spelling the full success value). -/
def exceptIsOk {α : Type} (e : Except String α) : Bool :=
  match e with
  | .ok _ => true
  | .error _ => false

theorem length_combinations {α : Type} :
    ∀ (l : List α) (r : Nat), (combinations l r).length = Nat.choose l.length r
  | _, 0 => by simp [combinations]
  | [], _ + 1 => by simp [combinations]
  | x :: xs, r + 1 => by
      simp [combinations, length_combinations xs r, length_combinations xs (r + 1),
        Nat.choose_succ_succ]

theorem list_range_map_sum (f : Nat → Nat) :
    ∀ n, ((List.range n).map f).sum = ∑ i in Finset.range n, f i := by
  intro n
  induction n with
  | zero => simp
  | succ n ih =>
      rw [List.range_succ, List.map_append, List.sum_append, Finset.sum_range_succ, ih]
      simp

theorem sum_choose_from_one (n : Nat) :
    ((List.range n).map (fun i => Nat.choose n (i + 1))).sum = 2 ^ n - 1 := by
  rw [list_range_map_sum]
  have h := Finset.sum_range_succ' (fun i => Nat.choose n i) n
  rw [Nat.sum_range_choose] at h
  simp only [Nat.choose_zero_right] at h
  omega

/-- C3: for every `N ≥ 0` criteria (the degenerate `N = 0` case included),
the combination generator produces, for each order `k + 1` with `k < N`,
exactly `C(N, k + 1)` combinations in each of its three parallel outputs
(numeric column-index combinations, column-letter combinations,
criteria-name combinations), all three in lockstep per order, for a total
of `2 ^ N - 1` combinations per output across all orders. -/
theorem combination_generator_order_counts
    (criteria chars : List String) (nums : List Nat)
    (hn : nums.length = criteria.length) (hc : chars.length = criteria.length) :
    ((get_filter_combinations_criteria_multiple_orders criteria nums chars).1.length
        = criteria.length ∧
      (get_filter_combinations_criteria_multiple_orders criteria nums chars).2.1.length
        = criteria.length ∧
      (get_filter_combinations_criteria_multiple_orders criteria nums chars).2.2.length
        = criteria.length) ∧
    (∀ k, k < criteria.length →
      ((get_filter_combinations_criteria_multiple_orders criteria nums chars).1.getD k []).length
          = Nat.choose criteria.length (k + 1) ∧
      ((get_filter_combinations_criteria_multiple_orders criteria nums chars).2.1.getD k []).length
          = Nat.choose criteria.length (k + 1) ∧
      ((get_filter_combinations_criteria_multiple_orders criteria nums chars).2.2.getD k []).length
          = Nat.choose criteria.length (k + 1)) ∧
    (((get_filter_combinations_criteria_multiple_orders criteria nums chars).1.map
        List.length).sum = 2 ^ criteria.length - 1 ∧
      ((get_filter_combinations_criteria_multiple_orders criteria nums chars).2.1.map
        List.length).sum = 2 ^ criteria.length - 1 ∧
      ((get_filter_combinations_criteria_multiple_orders criteria nums chars).2.2.map
        List.length).sum = 2 ^ criteria.length - 1) := by
  have hlen : ∀ (β : Type) (l : List β), l.length = criteria.length →
      ∀ k, k < criteria.length →
        ((multiOrderCombinations criteria.length l).getD k []).length
          = Nat.choose criteria.length (k + 1) := by
    intro β l hl k hk
    have hget : (multiOrderCombinations criteria.length l).getD k []
        = combinations l (k + 1) := by
      unfold multiOrderCombinations
      rw [List.getD_eq_getD_get?, List.get?_map, List.get?_range hk]
      rfl
    rw [hget, length_combinations, hl]
  have hsum : ∀ (β : Type) (l : List β), l.length = criteria.length →
      ((multiOrderCombinations criteria.length l).map List.length).sum
        = 2 ^ criteria.length - 1 := by
    intro β l hl
    unfold multiOrderCombinations
    rw [List.map_map]
    have : (List.length ∘ fun i => combinations l (i + 1))
        = fun i => Nat.choose criteria.length (i + 1) := by
      funext i
      simp [length_combinations, hl]
    rw [this, sum_choose_from_one]
  refine ⟨⟨?_, ?_, ?_⟩, ?_, ?_, ?_, ?_⟩
  · simp [get_filter_combinations_criteria_multiple_orders, multiOrderCombinations]
  · simp [get_filter_combinations_criteria_multiple_orders, multiOrderCombinations]
  · simp [get_filter_combinations_criteria_multiple_orders, multiOrderCombinations]
  · intro k hk
    exact ⟨hlen Nat nums hn k hk, hlen String chars hc k hk, hlen String criteria rfl k hk⟩
  · exact hsum Nat nums hn
  · exact hsum String chars hc
  · exact hsum String criteria rfl

/-- Witness for C3 at the repository's actual ten waste-filtration
criteria, with ten numeric indices and ten column letters. -/
theorem combination_generator_order_counts_witness :
    (List.range 10).length = WASTE_FILTRATION_CRITERIA.length ∧
    (WASTE_FILTRATION_CRITERIA.map (fun s => s ++ "!")).length
      = WASTE_FILTRATION_CRITERIA.length ∧
    ((get_filter_combinations_criteria_multiple_orders WASTE_FILTRATION_CRITERIA
        (List.range 10) (WASTE_FILTRATION_CRITERIA.map (fun s => s ++ "!"))).2.2.map
      List.length).sum = 2 ^ WASTE_FILTRATION_CRITERIA.length - 1 := by
  refine ⟨by decide, by simp, ?_⟩
  exact (combination_generator_order_counts WASTE_FILTRATION_CRITERIA
    (WASTE_FILTRATION_CRITERIA.map (fun s => s ++ "!")) (List.range 10)
    (by decide) (by simp)).2.2.2.2

theorem lookup_map_mk (f : String → Nat) :
    ∀ (l : List String) (c : String), c ∈ l →
      (l.map (fun x => (x, f x))).lookup c = some (f c) := by
  intro l
  induction l with
  | nil => intro c hc; cases hc
  | cons x xs ih =>
      intro c hc
      by_cases h : x = c
      · subst h; simp [List.lookup]
      · have hc' : c ∈ xs := by
          cases hc with
          | head => exact absurd rfl h
          | tail _ h' => exact h'
        have hne : (c == x) = false := by
          simp only [beq_eq_false_iff_ne, ne_eq]
          exact fun hh => h hh.symm
        simp [List.lookup, hne, ih c hc']

theorem combMatches_oneHot (cols : List String) (row : List String)
    (criteria comb : List String) (hsub : ∀ c ∈ comb, c ∈ criteria) :
    combMatches
      (criteria.map (fun c =>
        (c, if cellValue cols row c == some "Yes" then 1 else 0)))
      comb = rowAllYes cols row comb := by
  unfold combMatches rowAllYes
  induction comb with
  | nil => rfl
  | cons c cs ih =>
      have hc : c ∈ criteria := hsub c (List.mem_cons_self c cs)
      have hcs : ∀ x ∈ cs, x ∈ criteria := fun x hx => hsub x (List.mem_cons_of_mem c hx)
      simp only [List.all_cons, lookup_map_mk _ criteria c hc, ih hcs]
      cases h : (cellValue cols row c == some "Yes") <;> simp [h]

theorem matchComb_spec (criteria : List String) (df : DataFrame) (comb : List String)
    (hsub : ∀ c ∈ comb, c ∈ criteria) :
    matchComb (oneHotRows criteria df) comb =
      ((df.rows.filter (fun row => rowAllYes df.columns row comb)).length,
       (df.rows.filter (fun row => rowAllYes df.columns row comb)).map
         (hldRefOf df.columns)) := by
  unfold matchComb oneHotRows
  rw [List.filter_map]
  have hpred : ∀ row,
      ((fun r : List (String × Nat) × String => combMatches r.1 comb) ∘
        (fun row : List String =>
          (criteria.map (fun c =>
            (c, if cellValue df.columns row c == some "Yes" then 1 else 0)),
           (cellValue df.columns row "HLD reference").getD ""))) row
        = rowAllYes df.columns row comb := by
    intro row
    simp only [Function.comp]
    exact combMatches_oneHot df.columns row criteria comb hsub
  rw [List.filter_congr (fun row _ => hpred row)]
  simp [hldRefOf, Function.comp]

/-- C4: for every scope dataframe and every criterion combination, the Row
Matcher returns a count equal to the number of rows whose cell equals the
literal string "Yes" (case-sensitive, no trimming) in every criterion
column of the combination (AND semantics), and the identifier list is
exactly the "HLD reference" values of those rows, so its length equals the
count. -/
theorem row_matcher_count_and_refs (criteria : List String) (df : DataFrame)
    (comb : List String)
    (hcols : ∀ c ∈ criteria, df.columns.contains c = true)
    (href : df.columns.contains "HLD reference" = true)
    (hsub : ∀ c ∈ comb, c ∈ criteria) :
    get_filter_criteria_counts criteria df [[comb]] =
      .ok ([[(comb,
              (df.rows.filter (fun row => rowAllYes df.columns row comb)).length)]],
           [[(comb,
              (df.rows.filter (fun row => rowAllYes df.columns row comb)).map
                (hldRefOf df.columns))]]) ∧
    ((df.rows.filter (fun row => rowAllYes df.columns row comb)).map
        (hldRefOf df.columns)).length =
      (df.rows.filter (fun row => rowAllYes df.columns row comb)).length := by
  have h1 : criteria.all (fun c => df.columns.contains c) = true :=
    List.all_eq_true.2 hcols
  have h3 : ([[comb]] : List (List (List String))).all (fun order => order.all
      (fun cb => cb.all (fun c => criteria.contains c))) = true := by
    simp only [List.all_cons, List.all_nil, Bool.and_true]
    exact List.all_eq_true.2 (fun c hc => by
      simpa [List.contains] using List.elem_eq_true_of_mem (hsub c hc))
  constructor
  · unfold get_filter_criteria_counts
    rw [h1, href, h3]
    simp only [Bool.true_eq_false, if_false, List.map_cons, List.map_nil,
      matchComb_spec criteria df comb hsub]
  · exact List.length_map _ _

/-- Witness for C4: one criterion column, three rows; only the exact string
"Yes" matches ("yes" and "No" count as false). -/
theorem row_matcher_count_and_refs_witness :
    (∀ c ∈ ["Inert Waste"],
      (DataFrame.mk ["Inert Waste", "HLD reference"]
        [["Yes", "R1"], ["yes", "R2"], ["No", "R3"]]).columns.contains c = true) ∧
    get_filter_criteria_counts ["Inert Waste"]
      (DataFrame.mk ["Inert Waste", "HLD reference"]
        [["Yes", "R1"], ["yes", "R2"], ["No", "R3"]]) [[["Inert Waste"]]] =
      .ok ([[(["Inert Waste"], 1)]], [[(["Inert Waste"], ["R1"])]]) := by
  have h := row_matcher_count_and_refs ["Inert Waste"]
    (DataFrame.mk ["Inert Waste", "HLD reference"]
      [["Yes", "R1"], ["yes", "R2"], ["No", "R3"]]) ["Inert Waste"]
    (by decide) (by decide) (by decide)
  exact ⟨by decide, by rw [h.1]; decide⟩

/-- C7: if the scope dataframe's schema lacks one of the configured filter
criterion columns, the Row Matcher aborts with a schema error, and it does
so before any row is scanned: the result is the same whatever the rows
are. -/
theorem row_matcher_schema_error (criteria : List String) (df : DataFrame)
    (combs : List (List (List String))) (c : String)
    (hc : c ∈ criteria) (hmiss : df.columns.contains c = false) :
    get_filter_criteria_counts criteria df combs =
      .error "KeyError: waste filtration criteria column missing from dataframe" ∧
    ∀ otherRows : List (List String),
      get_filter_criteria_counts criteria (DataFrame.mk df.columns otherRows) combs =
        get_filter_criteria_counts criteria df combs := by
  have hall : criteria.all (fun x => df.columns.contains x) = false := by
    cases h : criteria.all (fun x => df.columns.contains x) with
    | false => rfl
    | true =>
        have h2 := List.all_eq_true.1 h c hc
        rw [hmiss] at h2
        exact Bool.noConfusion h2
  have hnotmem : c ∉ df.columns := by
    intro hm
    have h2 : df.columns.contains c = true := List.elem_eq_true_of_mem hm
    rw [hmiss] at h2
    exact Bool.noConfusion h2
  have key : ∀ rows' : List (List String),
      get_filter_criteria_counts criteria (DataFrame.mk df.columns rows') combs =
        .error "KeyError: waste filtration criteria column missing from dataframe" := by
    intro rows'
    simp only [get_filter_criteria_counts]
    rw [show (DataFrame.mk df.columns rows').columns = df.columns from rfl, hall]
    rfl
  have hdf : get_filter_criteria_counts criteria df combs =
      .error "KeyError: waste filtration criteria column missing from dataframe" := by
    simp only [get_filter_criteria_counts]
    rw [hall]
    rfl
  exact ⟨hdf, fun rows' => by rw [key rows', hdf]⟩

/-- Witness for C7: a frame missing the "Inert Waste" criterion column. -/
theorem row_matcher_schema_error_witness :
    ("Inert Waste" ∈ ["Inert Waste"] ∧
      (DataFrame.mk ["HLD reference"] [["R1"]]).columns.contains "Inert Waste" = false) ∧
    get_filter_criteria_counts ["Inert Waste"]
      (DataFrame.mk ["HLD reference"] [["R1"]]) [[["Inert Waste"]]] =
      .error "KeyError: waste filtration criteria column missing from dataframe" :=
  ⟨⟨by decide, by decide⟩,
   (row_matcher_schema_error ["Inert Waste"]
      (DataFrame.mk ["HLD reference"] [["R1"]]) [[["Inert Waste"]]] "Inert Waste"
      (by decide) (by decide)).1⟩

theorem uniqueSorted_perm_dedup (l : List String) : List.Perm (uniqueSorted l) l.dedup :=
  List.perm_insertionSort _ _

theorem uniqueSorted_length (l : List String) :
    (uniqueSorted l).length = l.dedup.length :=
  (uniqueSorted_perm_dedup l).length_eq

theorem uniqueSorted_toFinset (l : List String) :
    (uniqueSorted l).toFinset = l.toFinset := by
  rw [List.toFinset_eq_of_perm _ _ (uniqueSorted_perm_dedup l)]
  ext x
  simp [List.mem_toFinset, List.mem_dedup]

theorem mem_uniqueSorted {x : String} {l : List String} :
    x ∈ uniqueSorted l ↔ x ∈ l := by
  rw [(uniqueSorted_perm_dedup l).mem_iff, List.mem_dedup]

theorem uniqueSorted_nodup (l : List String) : (uniqueSorted l).Nodup :=
  ((uniqueSorted_perm_dedup l).nodup_iff).2 (List.nodup_dedup l)

theorem dedup_length_le_of_mem_subset (l l' : List String)
    (h : ∀ x ∈ l, x ∈ l') : l.dedup.length ≤ l'.length := by
  have h1 : l.toFinset ⊆ l'.toFinset := by
    intro x hx
    rw [List.mem_toFinset] at hx ⊢
    exact h x hx
  calc l.dedup.length = l.toFinset.card := (List.card_toFinset l).symm
    _ ≤ l'.toFinset.card := Finset.card_le_card h1
    _ ≤ l'.length := List.toFinset_card_le l'

theorem matcher_ok_elim (criteria : List String) (df : DataFrame)
    (combs : List (List (List String))) (out : MatcherOut)
    (h : get_filter_criteria_counts criteria df combs = .ok out) :
    out = (combs.map (fun order => order.map (fun comb =>
            (comb, (matchComb (oneHotRows criteria df) comb).1))),
           combs.map (fun order => order.map (fun comb =>
            (comb, (matchComb (oneHotRows criteria df) comb).2)))) := by
  unfold get_filter_criteria_counts at h
  split at h
  · exact Except.noConfusion h
  · split at h
    · exact Except.noConfusion h
    · split at h
      · exact Except.noConfusion h
      · injection h with h'
        exact h'.symm

theorem matcher_refs_mem (criteria : List String) (df : DataFrame)
    (combs : List (List (List String))) (out : MatcherOut)
    (h : get_filter_criteria_counts criteria df combs = .ok out) :
    ∀ order ∈ out.2, ∀ p ∈ order, ∀ x ∈ p.2,
      x ∈ df.rows.map (hldRefOf df.columns) := by
  have hout := matcher_ok_elim criteria df combs out h
  subst hout
  intro order horder p hp x hx
  rw [List.mem_map] at horder
  obtain ⟨order0, _, rfl⟩ := horder
  rw [List.mem_map] at hp
  obtain ⟨comb, _, rfl⟩ := hp
  unfold matchComb at hx
  simp only at hx
  rw [List.mem_map] at hx
  obtain ⟨r, hr, rfl⟩ := hx
  have hr2 : r ∈ oneHotRows criteria df := List.mem_of_mem_filter hr
  unfold oneHotRows at hr2
  rw [List.mem_map] at hr2
  obtain ⟨row, hrow, rfl⟩ := hr2
  exact List.mem_map_of_mem (hldRefOf df.columns) hrow

theorem check_site_totals_ok (df : DataFrame) (refs : CombRefs)
    (hmem : ∀ order ∈ refs, ∀ p ∈ order, ∀ x ∈ p.2,
      x ∈ df.rows.map (hldRefOf df.columns)) :
    check_site_totals df refs = .ok () := by
  have hsub : ∀ x ∈ ((refs.map (fun order => (order.map (fun p => p.2)).flatten)).flatten),
      x ∈ df.rows.map (hldRefOf df.columns) := by
    intro x hx
    rw [List.mem_flatten] at hx
    obtain ⟨l, hl, hxl⟩ := hx
    rw [List.mem_map] at hl
    obtain ⟨order, horder, rfl⟩ := hl
    rw [List.mem_flatten] at hxl
    obtain ⟨rl, hrl, hxrl⟩ := hxl
    rw [List.mem_map] at hrl
    obtain ⟨p, hp, rfl⟩ := hrl
    exact hmem order horder p hp x hxrl
  have hle : ((refs.map (fun order =>
      (order.map (fun p => p.2)).flatten)).flatten).dedup.length ≤ df.rows.length := by
    calc ((refs.map (fun order => (order.map (fun p => p.2)).flatten)).flatten).dedup.length
        ≤ (df.rows.map (hldRefOf df.columns)).length :=
          dedup_length_le_of_mem_subset _ _ hsub
      _ = df.rows.length := List.length_map _ _
  unfold check_site_totals
  rw [if_pos hle]

theorem buildCombinationRecords_mem (scopeName : String) (fo : Nat) :
    ∀ (oc : List (List String × Nat)) (orr : List (List String × List String))
      (perOrder grand : List String) (e : Nat) (r : StatsRecord),
      r ∈ buildCombinationRecords scopeName fo oc orr perOrder grand e →
      r.primaryFilter = scopeName ∧ r.filterOrder = fo ∧
      r.siteRefNumsPerOrder = perOrder ∧
      r.numUniqueSiteRefsPerOrder = perOrder.length ∧
      r.totalUniqueSiteRefNums = grand ∧
      r.totalNumUniqueSiteRefs = grand.length := by
  intro oc
  induction oc with
  | nil =>
      intro orr perOrder grand e r hr
      simp [buildCombinationRecords] at hr
  | cons hd tl ih =>
      intro orr perOrder grand e r hr
      obtain ⟨comb, n⟩ := hd
      simp only [buildCombinationRecords, List.mem_cons] at hr
      cases hr with
      | inl h => subst h; exact ⟨rfl, rfl, rfl, rfl, rfl, rfl⟩
      | inr h => exact ih orr perOrder grand (e + 1) r h

theorem buildScopeOrders_mem (scopeName : String) :
    ∀ (counts : CombCounts) (refs : CombRefs) (oi e : Nat) (grand : List String)
      (r : StatsRecord), r ∈ (buildScopeOrders scopeName oi counts refs e grand).1 →
      ∃ k orderRefs, refs.get? k = some orderRefs ∧
        r.primaryFilter = scopeName ∧ r.filterOrder = oi + k + 1 ∧
        r.siteRefNumsPerOrder = uniqueSorted ((orderRefs.map (fun p => p.2)).flatten) ∧
        r.numUniqueSiteRefsPerOrder =
          (uniqueSorted ((orderRefs.map (fun p => p.2)).flatten)).length := by
  intro counts
  induction counts with
  | nil =>
      intro refs oi e grand r hr
      simp [buildScopeOrders] at hr
  | cons oc cs ih =>
      intro refs oi e grand r hr
      cases refs with
      | nil => simp [buildScopeOrders] at hr
      | cons orr rs =>
          simp only [buildScopeOrders, List.mem_append] at hr
          cases hr with
          | inl h =>
              have hf := buildCombinationRecords_mem scopeName (oi + 1) oc orr _ _ e r h
              exact ⟨0, orr, rfl, hf.1, by rw [hf.2.1], hf.2.2.1, hf.2.2.2.1⟩
          | inr h =>
              obtain ⟨k, orderRefs, hk, h1, h2, h3, h4⟩ :=
                ih rs (oi + 1) (e + oc.length) _ r h
              exact ⟨k + 1, orderRefs, by simpa using hk, h1, by omega, h3, h4⟩

/-- C5: for every scope dataframe `S` and every order, the per-(scope, order)
deduplicated identifier set built by the report builder equals (as a set)
the union of the Row Matcher's identifier lists over all combinations of
that order in `S`, its reported size is the cardinality of that union, and
that size is at most the row count of `S`; the sanity check
`check_site_totals` passes as well. -/
theorem per_scope_order_dedup_eq_union (criteria : List String) (S : DataFrame)
    (combs : List (List (List String))) (out : MatcherOut) (scopeName : String)
    (h : get_filter_criteria_counts criteria S combs = .ok out) :
    check_site_totals S out.2 = .ok () ∧
    ∀ r ∈ construct_count_statistics_dataframe [(scopeName, out)],
      ∃ k orderRefs, out.2.get? k = some orderRefs ∧ r.filterOrder = k + 1 ∧
        r.siteRefNumsPerOrder.toFinset =
          ((orderRefs.map (fun p => p.2)).flatten).toFinset ∧
        r.numUniqueSiteRefsPerOrder =
          ((orderRefs.map (fun p => p.2)).flatten).dedup.length ∧
        r.numUniqueSiteRefsPerOrder ≤ S.rows.length := by
  have hmem := matcher_refs_mem criteria S combs out h
  refine ⟨check_site_totals_ok S out.2 hmem, ?_⟩
  intro r hr
  have hr' : r ∈ (buildScopeOrders scopeName 0 out.1 out.2 1 []).1 := by
    simpa [construct_count_statistics_dataframe, buildScopes] using hr
  obtain ⟨k, orderRefs, hk, _, h2, h3, h4⟩ :=
    buildScopeOrders_mem scopeName out.1 out.2 0 1 [] r hr'
  have horder : orderRefs ∈ out.2 := List.get?_mem hk
  have hflat : ∀ x ∈ ((orderRefs.map (fun p => p.2)).flatten),
      x ∈ S.rows.map (hldRefOf S.columns) := by
    intro x hx
    rw [List.mem_flatten] at hx
    obtain ⟨rl, hrl, hxrl⟩ := hx
    rw [List.mem_map] at hrl
    obtain ⟨p, hp, rfl⟩ := hrl
    exact hmem orderRefs horder p hp x hxrl
  refine ⟨k, orderRefs, hk, by omega, ?_, ?_, ?_⟩
  · rw [h3, uniqueSorted_toFinset]
  · rw [h4, uniqueSorted_length]
  · rw [h4, uniqueSorted_length]
    calc ((orderRefs.map (fun p => p.2)).flatten).dedup.length
        ≤ (S.rows.map (hldRefOf S.columns)).length :=
          dedup_length_le_of_mem_subset _ _ hflat
      _ = S.rows.length := List.length_map _ _

/-- Witness for C5: one criterion, two rows sharing one HLD reference, so
the per-order deduplicated count is 1 while the combination count is 2. -/
theorem per_scope_order_dedup_eq_union_witness :
    get_filter_criteria_counts ["A"]
        (DataFrame.mk ["A", "HLD reference"] [["Yes", "R1"], ["Yes", "R1"]])
        [[["A"]]] =
      .ok ([[(["A"], 2)]], [[(["A"], ["R1", "R1"])]]) ∧
    (check_site_totals (DataFrame.mk ["A", "HLD reference"]
        [["Yes", "R1"], ["Yes", "R1"]]) [[(["A"], ["R1", "R1"])]] = .ok () ∧
      ∀ r ∈ construct_count_statistics_dataframe
          [("Scope", ([[(["A"], 2)]], [[(["A"], ["R1", "R1"])]]))],
        ∃ k orderRefs,
          ([[(["A"], ["R1", "R1"])]] : CombRefs).get? k = some orderRefs ∧
          r.filterOrder = k + 1 ∧
          r.siteRefNumsPerOrder.toFinset =
            ((orderRefs.map (fun p => p.2)).flatten).toFinset ∧
          r.numUniqueSiteRefsPerOrder =
            ((orderRefs.map (fun p => p.2)).flatten).dedup.length ∧
          r.numUniqueSiteRefsPerOrder ≤
            (DataFrame.mk ["A", "HLD reference"]
              [["Yes", "R1"], ["Yes", "R1"]]).rows.length) :=
  ⟨by decide,
   per_scope_order_dedup_eq_union ["A"]
     (DataFrame.mk ["A", "HLD reference"] [["Yes", "R1"], ["Yes", "R1"]])
     [[["A"]]] ([[(["A"], 2)]], [[(["A"], ["R1", "R1"])]]) "Scope" (by decide)⟩

/-- C6 (amended): whenever the aggregator is invoked with
`enable_permutation` set (and the filter pairs unpack, i.e. are nonempty),
the run aborts with the explicit `NotImplementedError` "not supported"
signal before any data loading, statistics computation or worksheet save,
and never falls back to unordered combinations — for every input frame the
result is the same error; however, the permutation enumeration itself is
performed (and discarded) before the error is raised, as the recorded
event shows. -/
theorem permutation_mode_aborts (criteria : List String) (g : Option String)
    (df : DataFrame) (fcol : String) (primary secondary : List (String × String))
    (hp : primary.isEmpty = false) (hs : secondary.isEmpty = false) :
    get_count_statistics_filter_criteria criteria g df fcol primary secondary true =
      (.error "NotImplementedError: Permutation operations are not currently supported yet.",
       [PipelineEvent.permutationEnumeration
          (((multiOrderPermutations criteria.length criteria).map List.length).sum)]) := by
  unfold get_count_statistics_filter_criteria
  rw [hp, hs]
  simp

/-- Counterexample to C6 as stated: with permutation mode set the run does
abort with `NotImplementedError` and computes no statistics, but not
"without computing anything": the permutation enumeration is performed
first — here all 4 permuted tuples of the two criteria are enumerated
before the error is raised. -/
theorem permutation_mode_counterexample :
    (get_count_statistics_filter_criteria ["A", "B"] none (DataFrame.mk [] []) "col"
        [("P", "v")] [("S0", "c0"), ("S1", "c1")] true).2 =
      [PipelineEvent.permutationEnumeration 4] ∧
    (get_count_statistics_filter_criteria ["A", "B"] none (DataFrame.mk [] []) "col"
        [("P", "v")] [("S0", "c0"), ("S1", "c1")] true).1 =
      .error "NotImplementedError: Permutation operations are not currently supported yet." := by
  constructor
  · decide
  · decide

/-- Witness for the amended C6 theorem at a one-criterion configuration. -/
theorem permutation_mode_aborts_witness :
    (([("P", "v")] : List (String × String)).isEmpty = false ∧
     ([("S0", "c0")] : List (String × String)).isEmpty = false) ∧
    get_count_statistics_filter_criteria ["A"] none (DataFrame.mk [] []) "col"
        [("P", "v")] [("S0", "c0")] true =
      (.error "NotImplementedError: Permutation operations are not currently supported yet.",
       [PipelineEvent.permutationEnumeration
          (((multiOrderPermutations (["A"] : List String).length ["A"]).map
            List.length).sum)]) :=
  ⟨⟨by decide, by decide⟩,
   permutation_mode_aborts ["A"] none (DataFrame.mk [] []) "col" [("P", "v")]
     [("S0", "c0")] (by decide) (by decide)⟩

/-- C10: the primary-scope restriction reads the global name
`on_and_adjacent_ce_property_filter_column_name` (bound only in the
script's `__main__` block) and never the `filter_column_name` parameter:
the aggregator's result is unchanged under any change of that parameter
(its only Python use is inside the externalized data-loading collaborator),
and calling the function with the global unbound reaches the primary loop
and raises `NameError` (given that the phase before the loop — the root
matcher run — succeeds). -/
theorem global_name_primary_partition (criteria : List String) (g : Option String)
    (df : DataFrame) (f1 f2 : String) (primary secondary : List (String × String))
    (flag : Bool) (out : MatcherOut) :
    (get_count_statistics_filter_criteria criteria g df f1 primary secondary flag =
      get_count_statistics_filter_criteria criteria g df f2 primary secondary flag) ∧
    (primary.isEmpty = false → secondary.isEmpty = false →
      get_filter_criteria_counts criteria df
          (multiOrderCombinations criteria.length criteria) = .ok out →
      (get_count_statistics_filter_criteria criteria none df f1 primary secondary
          false).1 =
        .error "NameError: name on_and_adjacent_ce_property_filter_column_name is not defined") := by
  refine ⟨rfl, ?_⟩
  intro hp hs hout
  have hcheck := check_site_totals_ok df out.2 (matcher_refs_mem criteria df _ out hout)
  cases primary with
  | nil => simp [List.isEmpty] at hp
  | cons p rest =>
      obtain ⟨fname, fcrit⟩ := p
      have hrun : runAggregation criteria none df ((fname, fcrit) :: rest) secondary
          (multiOrderCombinations criteria.length criteria) =
          .error "NameError: name on_and_adjacent_ce_property_filter_column_name is not defined" := by
        simp only [runAggregation, hout, hcheck, primaryLoop]
      unfold get_count_statistics_filter_criteria
      rw [hp, hs]
      simp only [Bool.false_eq_true, if_false, hrun]

/-- Witness for C10 at a one-row frame whose root matcher run succeeds. -/
theorem global_name_primary_partition_witness :
    (([("P", "v")] : List (String × String)).isEmpty = false ∧
     ([("S0", "A"), ("S1", "A")] : List (String × String)).isEmpty = false ∧
     get_filter_criteria_counts ["A"]
        (DataFrame.mk ["A", "HLD reference"] [["Yes", "R1"]])
        (multiOrderCombinations (["A"] : List String).length ["A"]) =
       .ok ([[(["A"], 1)]], [[(["A"], ["R1"])]])) ∧
    (get_count_statistics_filter_criteria ["A"] none
        (DataFrame.mk ["A", "HLD reference"] [["Yes", "R1"]]) "x" [("P", "v")]
        [("S0", "A"), ("S1", "A")] false).1 =
      .error "NameError: name on_and_adjacent_ce_property_filter_column_name is not defined" :=
  ⟨⟨by decide, by decide, by decide⟩,
   (global_name_primary_partition ["A"] none
      (DataFrame.mk ["A", "HLD reference"] [["Yes", "R1"]]) "x" "y" [("P", "v")]
      [("S0", "A"), ("S1", "A")] false ([[(["A"], 1)]], [[(["A"], ["R1"])]])).2
     (by decide) (by decide) (by decide)⟩

/-- C2: the module initialization of combinations.py calls
`convert_useful_col_names_to_col_letters_and_indices` with four positional
arguments while the function is defined with exactly three parameters, so
in every environment importing the module fails at load time — it never
reaches a successful import, and whenever the earlier initialization lines
succeed (criteria found among the headers, the consistency assert passing,
the letter lookup succeeding) the failure is precisely the arity
`TypeError`, before any statistics function can be invoked. -/
theorem module_import_raises_type_error (headers letters : List String)
    (indices : List Nat) (usefulCols criteria : List String) :
    (∀ v, combinations_module_init headers letters indices usefulCols criteria ≠
      Except.ok v) ∧
    ((∃ idxNum idxChar,
        wasteCriteriaColIndicesNum headers indices criteria = .ok idxNum ∧
        checkColumns headers idxNum = .ok criteria ∧
        wasteCriteriaColIndicesChar letters idxNum = .ok idxChar) →
      combinations_module_init headers letters indices usefulCols criteria =
        .error "TypeError: positional argument count does not match parameter count") := by
  have hbind : bindPositionalArgs convertUsefulColNamesParams
      [PyValue.strList usefulCols, PyValue.strList headers,
       PyValue.strList letters, PyValue.natList indices] =
      .error "TypeError: positional argument count does not match parameter count" := by
    unfold bindPositionalArgs convertUsefulColNamesParams
    simp
  constructor
  · intro v hv
    unfold combinations_module_init at hv
    split at hv
    · exact Except.noConfusion hv
    · split at hv
      · exact Except.noConfusion hv
      · split at hv
        · exact Except.noConfusion hv
        · split at hv
          · exact Except.noConfusion hv
          · split at hv
            · exact Except.noConfusion hv
            · next a heq =>
                rw [hbind] at heq
                exact Except.noConfusion heq
  · rintro ⟨idxNum, idxChar, h1, h2, h3⟩
    unfold combinations_module_init
    simp only [h1, h2, h3, hbind, ne_eq, not_true_eq_false, if_false]

/-- Witness for C2 in a consistent one-column environment. -/
theorem module_import_raises_type_error_witness :
    (∃ idxNum idxChar,
        wasteCriteriaColIndicesNum ["A"] [0] ["A"] = .ok idxNum ∧
        checkColumns ["A"] idxNum = .ok ["A"] ∧
        wasteCriteriaColIndicesChar ["Alpha"] idxNum = .ok idxChar) ∧
    combinations_module_init ["A"] ["Alpha"] [0] ["A"] ["A"] =
      .error "TypeError: positional argument count does not match parameter count" :=
  ⟨⟨[0], ["Alpha"], by decide, by decide, by decide⟩,
   (module_import_raises_type_error ["A"] ["Alpha"] [0] ["A"] ["A"]).2
     ⟨[0], ["Alpha"], by decide, by decide, by decide⟩⟩

theorem dictInsert_of_fresh {V : Type} (d : List (String × V)) (k : String) (v : V)
    (h : k ∉ d.map (fun p => p.1)) : dictInsert d k v = d ++ [(k, v)] := by
  unfold dictInsert
  rw [if_neg]
  intro hc
  rw [List.any_eq_true] at hc
  obtain ⟨p, hp, hpk⟩ := hc
  rw [beq_iff_eq] at hpk
  exact h (List.mem_map.2 ⟨p, hp, hpk⟩)

theorem mem_dictInsert {V : Type} (d : List (String × V)) (k : String) (v : V)
    (e : String × V) (h : e ∈ dictInsert d k v) : e ∈ d ∨ e = (k, v) := by
  unfold dictInsert at h
  split at h
  · rw [List.mem_map] at h
    obtain ⟨p, hp, hpe⟩ := h
    by_cases hk : (p.1 == k) = true
    · rw [if_pos hk] at hpe; exact Or.inr hpe.symm
    · rw [if_neg hk] at hpe; exact Or.inl (hpe ▸ hp)
  · rw [List.mem_append] at h
    cases h with
    | inl h2 => exact Or.inl h2
    | inr h2 => exact Or.inr (List.mem_singleton.1 h2)

theorem secondaryScopeStep_ok (secondary : List (String × String)) (i : Nat)
    (pname : String) (pdata : DataFrame) (name : String) (S : DataFrame)
    (h : secondaryScopeStep secondary i pname pdata = .ok (name, S)) :
    name = composedScopeName secondary i pname ∧ S.columns = pdata.columns ∧
      ∀ row ∈ S.rows, row ∈ pdata.rows := by
  unfold secondaryScopeStep at h
  unfold composedScopeName
  split at h
  · next sp heq =>
      split at h
      · exact Except.noConfusion h
      · injection h with h'
        rw [Prod.mk.injEq] at h'
        obtain ⟨hn, hS⟩ := h'
        refine ⟨hn.symm, ?_, ?_⟩
        · rw [← hS]; rfl
        · intro row hrow
          rw [← hS] at hrow
          exact List.mem_of_mem_filter hrow
  · next heq =>
      split at h
      · next a b h0 h1 =>
          split at h
          · exact Except.noConfusion h
          · injection h with h'
            rw [Prod.mk.injEq] at h'
            obtain ⟨hn, hS⟩ := h'
            rw [h0, h1]
            refine ⟨?_, ?_, ?_⟩
            · simp only [Option.map_some', Option.getD_some]
              exact hn.symm
            · rw [← hS]; rfl
            · intro row hrow
              rw [← hS] at hrow
              exact List.mem_of_mem_filter hrow
      · exact Except.noConfusion h

theorem fresh_after_append {V : Type} (d : List (String × V)) (k : String) (v : V)
    (names : List String) (hf : ∀ n ∈ names, n ∉ d.map (fun p => p.1))
    (hk : k ∉ names) :
    ∀ n ∈ names, n ∉ (d ++ [(k, v)]).map (fun p => p.1) := by
  intro n hn
  rw [List.map_append, List.mem_append]
  push_neg
  refine ⟨hf n hn, ?_⟩
  simp only [List.map_cons, List.map_nil, List.mem_singleton]
  intro heq
  exact hk (heq ▸ hn)

theorem primaryLoop_keys (criteria : List String) (g : Option String)
    (hld : DataFrame) (combs : List (List (List String))) :
    ∀ (lst : List (String × String)) (dd : List (String × DataFrame))
      (cd : List (String × MatcherOut)) (dd' : List (String × DataFrame))
      (cd' : List (String × MatcherOut)),
      primaryLoop criteria g hld combs lst dd cd = .ok (dd', cd') →
      (∀ n ∈ lst.map (fun p => p.1), n ∉ dd.map (fun p => p.1)) →
      (∀ n ∈ lst.map (fun p => p.1), n ∉ cd.map (fun p => p.1)) →
      (lst.map (fun p => p.1)).Nodup →
      dd'.map (fun p => p.1) = dd.map (fun p => p.1) ++ lst.map (fun p => p.1) ∧
      cd'.map (fun p => p.1) = cd.map (fun p => p.1) ++ lst.map (fun p => p.1) := by
  intro lst
  induction lst with
  | nil =>
      intro dd cd dd' cd' h _ _ _
      simp only [primaryLoop] at h
      injection h with h'
      rw [Prod.mk.injEq] at h'
      obtain ⟨h1, h2⟩ := h'
      subst h1
      subst h2
      simp
  | cons p rest ih =>
      intro dd cd dd' cd' h hf1 hf2 hnd
      obtain ⟨fname, fcrit⟩ := p
      simp only [primaryLoop] at h
      split at h
      · exact Except.noConfusion h
      · next pcol =>
          split at h
          · exact Except.noConfusion h
          · split at h
            · exact Except.noConfusion h
            · next out hout =>
                split at h
                · exact Except.noConfusion h
                · have hfname_dd : fname ∉ dd.map (fun p => p.1) := hf1 fname (by simp)
                  have hfname_cd : fname ∉ cd.map (fun p => p.1) := hf2 fname (by simp)
                  have hnd1 : (fname :: rest.map (fun p => p.1)).Nodup := by
                    simpa only [List.map_cons] using hnd
                  have hnd2 := List.nodup_cons.1 hnd1
                  rw [dictInsert_of_fresh dd fname _ hfname_dd,
                    dictInsert_of_fresh cd fname _ hfname_cd] at h
                  obtain ⟨e1, e2⟩ := ih _ _ dd' cd' h
                    (fresh_after_append dd fname _ _
                      (fun n hn => hf1 n (by simp [hn])) hnd2.1)
                    (fresh_after_append cd fname _ _
                      (fun n hn => hf2 n (by simp [hn])) hnd2.1)
                    hnd2.2
                  constructor
                  · rw [e1]
                    simp [List.map_append, List.append_assoc]
                  · rw [e2]
                    simp [List.map_append, List.append_assoc]

theorem secondaryInnerLoop_keys (criteria : List String)
    (combs : List (List (List String))) (secondary : List (String × String)) (i : Nat) :
    ∀ (dataDict : List (String × DataFrame)) (cd cd' : List (String × MatcherOut)),
      secondaryInnerLoop criteria combs secondary i dataDict cd = .ok cd' →
      (∀ n ∈ (dataDict.map (fun p => p.1)).map (composedScopeName secondary i),
        n ∉ cd.map (fun p => p.1)) →
      ((dataDict.map (fun p => p.1)).map (composedScopeName secondary i)).Nodup →
      cd'.map (fun p => p.1) =
        cd.map (fun p => p.1) ++
          (dataDict.map (fun p => p.1)).map (composedScopeName secondary i) := by
  intro dataDict
  induction dataDict with
  | nil =>
      intro cd cd' h _ _
      simp only [secondaryInnerLoop] at h
      injection h with h'
      subst h'
      simp
  | cons p rest ih =>
      intro cd cd' h hf hnd
      obtain ⟨pname, pdata⟩ := p
      simp only [secondaryInnerLoop] at h
      split at h
      · exact Except.noConfusion h
      · next nt hstep =>
          split at h
          · exact Except.noConfusion h
          · next out hout =>
              split at h
              · exact Except.noConfusion h
              · obtain ⟨hname, _, _⟩ :=
                  secondaryScopeStep_ok secondary i pname pdata nt.1 nt.2 hstep
                have hfresh : nt.1 ∉ cd.map (fun p => p.1) := by
                  rw [hname]
                  exact hf _ (by simp)
                rw [dictInsert_of_fresh cd nt.1 _ hfresh] at h
                have hnd1 : (composedScopeName secondary i pname ::
                    (rest.map (fun p => p.1)).map (composedScopeName secondary i)).Nodup := by
                  simpa only [List.map_cons] using hnd
                have hnd2 := List.nodup_cons.1 hnd1
                have e := ih _ cd' h
                  (fresh_after_append cd nt.1 _ _
                    (fun n hn => hf n (by
                      rw [List.map_cons, List.map_cons]
                      exact List.mem_cons_of_mem _ hn))
                    (by rw [hname]; exact hnd2.1))
                  hnd2.2
                rw [e, hname]
                simp [List.map_append, List.append_assoc]

theorem secondaryOuterLoop_keys (criteria : List String)
    (combs : List (List (List String))) (secondary : List (String × String))
    (dataDict : List (String × DataFrame)) :
    ∀ (idxs : List Nat) (cd cd' : List (String × MatcherOut)),
      secondaryOuterLoop criteria combs secondary dataDict idxs cd = .ok cd' →
      (∀ n ∈ (idxs.map (fun i => (dataDict.map (fun p => p.1)).map
          (composedScopeName secondary i))).flatten, n ∉ cd.map (fun p => p.1)) →
      ((idxs.map (fun i => (dataDict.map (fun p => p.1)).map
          (composedScopeName secondary i))).flatten).Nodup →
      cd'.map (fun p => p.1) = cd.map (fun p => p.1) ++
        (idxs.map (fun i => (dataDict.map (fun p => p.1)).map
          (composedScopeName secondary i))).flatten := by
  intro idxs
  induction idxs with
  | nil =>
      intro cd cd' h _ _
      simp only [secondaryOuterLoop] at h
      injection h with h'
      subst h'
      simp
  | cons i rest ih =>
      intro cd cd' h hf hnd
      simp only [secondaryOuterLoop] at h
      split at h
      · exact Except.noConfusion h
      · next cdMid hInner =>
          rw [List.map_cons, List.flatten_cons] at hnd
          rw [List.nodup_append] at hnd
          obtain ⟨hndBlock, hndRest, hdisj⟩ := hnd
          have hfBlock : ∀ n ∈ (dataDict.map (fun p => p.1)).map
              (composedScopeName secondary i), n ∉ cd.map (fun p => p.1) := by
            intro n hn
            exact hf n (by rw [List.map_cons, List.flatten_cons, List.mem_append]; exact Or.inl hn)
          have hkeysMid := secondaryInnerLoop_keys criteria combs secondary i
            dataDict cd cdMid hInner hfBlock hndBlock
          have hfRest : ∀ n ∈ (rest.map (fun j => (dataDict.map (fun p => p.1)).map
              (composedScopeName secondary j))).flatten,
              n ∉ cdMid.map (fun p => p.1) := by
            intro n hn
            rw [hkeysMid, List.mem_append]
            push_neg
            refine ⟨?_, ?_⟩
            · exact hf n (by rw [List.map_cons, List.flatten_cons, List.mem_append]; exact Or.inr hn)
            · intro hcontra
              exact hdisj hcontra hn
          have e := ih cdMid cd' h hfRest hndRest
          rw [e, hkeysMid, List.map_cons, List.flatten_cons, List.append_assoc]

theorem aggregation_keys (criteria : List String) (g : Option String)
    (hld : DataFrame) (primary secondary : List (String × String))
    (combs : List (List (List String))) (res : AggResult)
    (h : runAggregation criteria g hld primary secondary combs = .ok res)
    (hnd : (expectedScopeKeys primary secondary).Nodup) :
    res.countsDict.map (fun p => p.1) = expectedScopeKeys primary secondary := by
  have hnd1 := List.nodup_cons.1 hnd
  have hnd2 := List.nodup_append.1 hnd1.2
  unfold runAggregation at h
  split at h
  · exact Except.noConfusion h
  · next rootOut hroot =>
      split at h
      · exact Except.noConfusion h
      · split at h
        · exact Except.noConfusion h
        · next dicts hprim =>
            split at h
            · exact Except.noConfusion h
            · next countsDict hsec =>
                injection h with h'
                subst h'
                obtain ⟨e1, e2⟩ := primaryLoop_keys criteria g hld combs primary
                  [("# Sites relevant CE", hld)] [("# Sites relevant CE", rootOut)]
                  dicts.1 dicts.2 (by rw [← hprim])
                  (by
                    intro n hn
                    simp only [List.map_cons, List.map_nil, List.mem_singleton]
                    intro heq
                    exact hnd1.1 (List.mem_append.2 (Or.inl (heq ▸ hn))))
                  (by
                    intro n hn
                    simp only [List.map_cons, List.map_nil, List.mem_singleton]
                    intro heq
                    exact hnd1.1 (List.mem_append.2 (Or.inl (heq ▸ hn))))
                  hnd2.1
                simp only [List.map_cons, List.map_nil, List.nil_append] at e1 e2
                have hflat : ((List.range (secondary.length + 1)).map (fun i =>
                    (dicts.1.map (fun p => p.1)).map (composedScopeName secondary i))).flatten
                      = composedScopeKeys primary secondary := by
                  rw [e1]
                  rfl
                have e3 := secondaryOuterLoop_keys criteria combs secondary dicts.1
                  (List.range (secondary.length + 1)) dicts.2 countsDict hsec
                  (by
                    rw [hflat, e2]
                    intro n hn
                    simp only [List.singleton_append, List.mem_cons]
                    push_neg
                    refine ⟨?_, ?_⟩
                    · intro heq
                      exact hnd1.1 (List.mem_append.2 (Or.inr (heq ▸ hn)))
                    · intro hcontra
                      exact (List.disjoint_right.1 hnd2.2.2) hn hcontra)
                  (by rw [hflat]; exact hnd2.2.1)
                rw [e3, hflat, e2]
                unfold expectedScopeKeys
                simp

theorem exceptIsOk_iff {α : Type} (e : Except String α) :
    exceptIsOk e = true ↔ ∃ a, e = .ok a := by
  cases e with
  | error s => simp [exceptIsOk]
  | ok a => simp [exceptIsOk]

theorem pipeline_ok_elim (criteria : List String) (g : Option String)
    (hld : DataFrame) (fcol : String) (primary secondary : List (String × String))
    (res : AggResult)
    (h : (get_count_statistics_filter_criteria criteria g hld fcol primary
        secondary false).1 = .ok res) :
    runAggregation criteria g hld primary secondary
      (multiOrderCombinations criteria.length criteria) = .ok res := by
  unfold get_count_statistics_filter_criteria at h
  split at h
  · exact Except.noConfusion h
  · split at h
    · exact Except.noConfusion h
    · split at h
      · exact Except.noConfusion h
      · split at h
        · exact Except.noConfusion h
        · next res0 heq =>
            injection h with h'
            rw [← h']
            exact heq

theorem composed_scope_mem (criteria : List String) (g : Option String)
    (hld : DataFrame) (fcol : String) (primary secondary : List (String × String))
    (res : AggResult)
    (h : (get_count_statistics_filter_criteria criteria g hld fcol primary
        secondary false).1 = .ok res)
    (hnd : (expectedScopeKeys primary secondary).Nodup) :
    ∀ i, i ≤ secondary.length →
      ∀ p ∈ ("# Sites relevant CE" :: primary.map (fun q => q.1)),
        composedScopeName secondary i p ∈ res.countsDict.map (fun q => q.1) := by
  have hkeys := aggregation_keys criteria g hld primary secondary _ res
    (pipeline_ok_elim criteria g hld fcol primary secondary res h) hnd
  intro i hi p hp
  rw [hkeys]
  have hmem : composedScopeName secondary i p ∈ composedScopeKeys primary secondary := by
    unfold composedScopeKeys
    rw [List.mem_flatten]
    refine ⟨("# Sites relevant CE" :: primary.map (fun q => q.1)).map
      (composedScopeName secondary i), ?_, ?_⟩
    · rw [List.mem_map]
      exact ⟨i, by rw [List.mem_range]; omega, rfl⟩
    · exact List.mem_map_of_mem _ hp
  simp only [expectedScopeKeys, List.mem_cons, List.mem_append]
  tauto

/-- C9 (amended): for every run of the aggregator that completes (with
distinct generated scope names), the statistics dict's keys are the root
scope, the primary scopes, and then the composed scopes — and because the
root Row set is stored in the same dictionary the secondary loop iterates
over, secondary-composed scopes are generated for the root scope (keyed
"# Sites relevant CE") as well, yielding
`(len(secondary) + 1) * (len(primary) + 1)` composed scopes in total.
(As stated the claim fails for runs with exactly one secondary filter,
which abort with `IndexError` and produce nothing; completion forces at
least two.) -/
theorem root_scope_composed_scopes (criteria : List String) (g : Option String)
    (hld : DataFrame) (fcol : String) (primary secondary : List (String × String))
    (res : AggResult)
    (h : (get_count_statistics_filter_criteria criteria g hld fcol primary
        secondary false).1 = .ok res)
    (hnd : (expectedScopeKeys primary secondary).Nodup) :
    res.countsDict.map (fun p => p.1) = expectedScopeKeys primary secondary ∧
    (composedScopeKeys primary secondary).length =
      (secondary.length + 1) * (primary.length + 1) ∧
    ∀ i, i ≤ secondary.length →
      composedScopeName secondary i "# Sites relevant CE" ∈
        res.countsDict.map (fun p => p.1) := by
  refine ⟨aggregation_keys criteria g hld primary secondary _ res
    (pipeline_ok_elim criteria g hld fcol primary secondary res h) hnd, ?_, ?_⟩
  · unfold composedScopeKeys
    rw [List.length_flatten, List.map_map]
    have hconst : (List.length ∘ fun i =>
        ("# Sites relevant CE" :: primary.map (fun p => p.1)).map
          (composedScopeName secondary i)) = fun _ => primary.length + 1 := by
      funext i
      simp [Function.comp]
    rw [hconst, list_range_map_sum]
    simp [Finset.sum_const, Finset.card_range, smul_eq_mul]
  · intro i hi
    exact composed_scope_mem criteria g hld fcol primary secondary res h hnd i hi
      "# Sites relevant CE" (by simp)

/-- Counterexample to C9 as stated: with exactly one secondary filter the
run does not yield `(P + 1) * (S + 1)` composed scopes — it aborts with an
`IndexError` (the all-secondary scope name hardcodes the first two
secondary names), producing no result at all. -/
theorem root_scope_composed_scopes_counterexample :
    (get_count_statistics_filter_criteria ["A"] (some "PCol")
        (DataFrame.mk ["A", "HLD reference", "PCol", "SA"]
          [["Yes", "R1", "P1v", "Yes"]])
        "f" [("P1", "P1v")] [("S0", "SA")] false).1 =
      .error "IndexError: tuple index out of range" := by
  decide

/-- Witness for the amended C9 at a one-primary, two-secondary run. -/
theorem root_scope_composed_scopes_witness :
    (∃ res,
      (get_count_statistics_filter_criteria ["A"] (some "PCol")
          (DataFrame.mk ["A", "HLD reference", "PCol", "SA", "SB"]
            [["Yes", "R1", "P1v", "No", "No"]])
          "f" [("P1", "P1v")] [("S0", "SA"), ("S1", "SB")] false).1 = .ok res ∧
      res.countsDict.map (fun p => p.1) =
        expectedScopeKeys [("P1", "P1v")] [("S0", "SA"), ("S1", "SB")]) ∧
    (composedScopeKeys [("P1", "P1v")] [("S0", "SA"), ("S1", "SB")]).length = 3 * 2 := by
  have hok : exceptIsOk (get_count_statistics_filter_criteria ["A"] (some "PCol")
      (DataFrame.mk ["A", "HLD reference", "PCol", "SA", "SB"]
        [["Yes", "R1", "P1v", "No", "No"]])
      "f" [("P1", "P1v")] [("S0", "SA"), ("S1", "SB")] false).1 = true := by decide
  obtain ⟨res, hres⟩ := (exceptIsOk_iff _).1 hok
  have hthm := root_scope_composed_scopes ["A"] (some "PCol")
    (DataFrame.mk ["A", "HLD reference", "PCol", "SA", "SB"]
      [["Yes", "R1", "P1v", "No", "No"]])
    "f" [("P1", "P1v")] [("S0", "SA"), ("S1", "SB")] res hres (by decide)
  exact ⟨⟨res, hres, hthm.1⟩, hthm.2.1⟩

/-- C8 (amended): for every completed run, each single-secondary composed
scope is named "<scope> + <secondary>" (for the root and for every primary
scope), and the all-secondary conjunction scope is named by chaining
exactly the first two secondary names after the scope name — which equals
chaining all of them only when there are exactly two secondary filters. -/
theorem composed_scope_naming (criteria : List String) (g : Option String)
    (hld : DataFrame) (fcol : String) (primary secondary : List (String × String))
    (res : AggResult)
    (h : (get_count_statistics_filter_criteria criteria g hld fcol primary
        secondary false).1 = .ok res)
    (hnd : (expectedScopeKeys primary secondary).Nodup) :
    (∀ i sp, secondary.get? i = some sp →
      ∀ p ∈ ("# Sites relevant CE" :: primary.map (fun q => q.1)),
        p ++ " + " ++ sp.1 ∈ res.countsDict.map (fun q => q.1)) ∧
    (∀ s0 s1, secondary.get? 0 = some s0 → secondary.get? 1 = some s1 →
      ∀ p ∈ ("# Sites relevant CE" :: primary.map (fun q => q.1)),
        p ++ " + " ++ s0.1 ++ " + " ++ s1.1 ∈ res.countsDict.map (fun q => q.1)) := by
  have hmem := composed_scope_mem criteria g hld fcol primary secondary res h hnd
  constructor
  · intro i sp hsp p hp
    have hi : i < secondary.length := by
      by_contra hge
      rw [List.get?_eq_none.2 (by omega)] at hsp
      exact Option.noConfusion hsp
    have e : composedScopeName secondary i p = p ++ " + " ++ sp.1 := by
      unfold composedScopeName
      rw [hsp]
    have := hmem i (by omega) p hp
    rw [e] at this
    exact this
  · intro s0 s1 h0 h1 p hp
    have e : composedScopeName secondary secondary.length p =
        p ++ " + " ++ s0.1 ++ " + " ++ s1.1 := by
      unfold composedScopeName
      rw [List.get?_eq_none.2 (le_refl secondary.length), h0, h1]
      simp
    have := hmem secondary.length (le_refl _) p hp
    rw [e] at this
    exact this

/-- Counterexample to C8 as stated: in a run with three secondary filters
(m = 3) the all-secondary conjunction scope is named by chaining only the
first two secondary names — the dict holds "P1 + S0 + S1" (and the root
variant) while the claimed name "P1 + S0 + S1 + S2" appears nowhere. -/
theorem composed_scope_naming_counterexample :
    ((get_count_statistics_filter_criteria ["A"] (some "PCol")
        (DataFrame.mk ["A", "HLD reference", "PCol", "SA", "SB", "SC"]
          [["Yes", "R1", "P1v", "Yes", "Yes", "Yes"]])
        "f" [("P1", "P1v")] [("S0", "SA"), ("S1", "SB"), ("S2", "SC")]
        false).1.toOption.map (fun res => res.countsDict.map (fun p => p.1))) =
      some ["# Sites relevant CE", "P1",
        "# Sites relevant CE + S0", "P1 + S0",
        "# Sites relevant CE + S1", "P1 + S1",
        "# Sites relevant CE + S2", "P1 + S2",
        "# Sites relevant CE + S0 + S1", "P1 + S0 + S1"] ∧
    "P1 + S0 + S1 + S2" ∉
      ["# Sites relevant CE", "P1",
        "# Sites relevant CE + S0", "P1 + S0",
        "# Sites relevant CE + S1", "P1 + S1",
        "# Sites relevant CE + S2", "P1 + S2",
        "# Sites relevant CE + S0 + S1", "P1 + S0 + S1"] := by
  constructor
  · decide
  · decide

/-- Witness for the amended C8 at a one-primary, two-secondary run. -/
theorem composed_scope_naming_witness :
    ∃ res,
      (get_count_statistics_filter_criteria ["A"] (some "PCol")
          (DataFrame.mk ["A", "HLD reference", "PCol", "SA", "SB"]
            [["Yes", "R1", "P1v", "No", "No"]])
          "g" [("P1", "P1v")] [("S0", "SA"), ("S1", "SB")] false).1 = .ok res ∧
      "P1 + S0" ∈ res.countsDict.map (fun q => q.1) ∧
      "P1 + S0 + S1" ∈ res.countsDict.map (fun q => q.1) := by
  have hok : exceptIsOk (get_count_statistics_filter_criteria ["A"] (some "PCol")
      (DataFrame.mk ["A", "HLD reference", "PCol", "SA", "SB"]
        [["Yes", "R1", "P1v", "No", "No"]])
      "g" [("P1", "P1v")] [("S0", "SA"), ("S1", "SB")] false).1 = true := by decide
  obtain ⟨res, hres⟩ := (exceptIsOk_iff _).1 hok
  have hthm := composed_scope_naming ["A"] (some "PCol")
    (DataFrame.mk ["A", "HLD reference", "PCol", "SA", "SB"]
      [["Yes", "R1", "P1v", "No", "No"]])
    "g" [("P1", "P1v")] [("S0", "SA"), ("S1", "SB")] res hres (by decide)
  refine ⟨res, hres, ?_, ?_⟩
  · exact hthm.1 0 ("S0", "SA") (by decide) "P1" (by simp)
  · exact hthm.2 ("S0", "SA") ("S1", "SB") (by decide) (by decide) "P1" (by simp)

theorem dedupUnion_step (acc : List String) (x : String) (xs : List String) :
    dedupUnion acc (x :: xs) =
      dedupUnion (if x ∈ acc then acc else acc ++ [x]) xs := by
  unfold dedupUnion
  rw [List.foldl_cons]

theorem dedupUnion_nodup : ∀ (l acc : List String), acc.Nodup →
    (dedupUnion acc l).Nodup := by
  intro l
  induction l with
  | nil => intro acc h; exact h
  | cons x xs ih =>
      intro acc h
      rw [dedupUnion_step]
      by_cases hx : x ∈ acc
      · rw [if_pos hx]; exact ih acc h
      · rw [if_neg hx]
        refine ih _ (List.nodup_append.2 ⟨h, List.nodup_singleton x, ?_⟩)
        intro a ha hax
        rw [List.mem_singleton] at hax
        exact hx (hax ▸ ha)

theorem mem_dedupUnion : ∀ (l acc : List String) (x : String),
    x ∈ dedupUnion acc l → x ∈ acc ∨ x ∈ l := by
  intro l
  induction l with
  | nil => intro acc x h; exact Or.inl h
  | cons y ys ih =>
      intro acc x h
      rw [dedupUnion_step] at h
      cases ih _ x h with
      | inl h2 =>
          by_cases hy : y ∈ acc
          · rw [if_pos hy] at h2; exact Or.inl h2
          · rw [if_neg hy] at h2
            rw [List.mem_append] at h2
            cases h2 with
            | inl h3 => exact Or.inl h3
            | inr h3 => exact Or.inr (by simp at h3; simp [h3])
      | inr h2 => exact Or.inr (List.mem_cons_of_mem y h2)

theorem length_le_dedupUnion : ∀ (l acc : List String),
    acc.length ≤ (dedupUnion acc l).length := by
  intro l
  induction l with
  | nil => intro acc; exact le_refl _
  | cons y ys ih =>
      intro acc
      rw [dedupUnion_step]
      by_cases hy : y ∈ acc
      · rw [if_pos hy]; exact ih acc
      · rw [if_neg hy]
        calc acc.length ≤ (acc ++ [y]).length := by simp
          _ ≤ (dedupUnion (acc ++ [y]) ys).length := ih _

theorem nodup_length_le_card (l : List String) (R : Finset String)
    (hnd : l.Nodup) (hmem : ∀ x ∈ l, x ∈ R) : l.length ≤ R.card := by
  have h1 : l.toFinset ⊆ R := fun x hx => hmem x (List.mem_toFinset.1 hx)
  calc l.length = l.toFinset.card := (List.toFinset_card_of_nodup hnd).symm
    _ ≤ R.card := Finset.card_le_card h1

theorem buildScopeOrders_grand (R : Finset String) (name : String) :
    ∀ (counts : CombCounts) (refs : CombRefs) (oi e : Nat) (grand : List String),
      grand.Nodup → (∀ x ∈ grand, x ∈ R) →
      (∀ order ∈ refs, ∀ p ∈ order, ∀ x ∈ p.2, x ∈ R) →
      ((buildScopeOrders name oi counts refs e grand).2.2.Nodup ∧
       (∀ x ∈ (buildScopeOrders name oi counts refs e grand).2.2, x ∈ R) ∧
       grand.length ≤ (buildScopeOrders name oi counts refs e grand).2.2.length ∧
       (∀ r ∈ (buildScopeOrders name oi counts refs e grand).1,
         grand.length ≤ r.totalNumUniqueSiteRefs ∧
         r.totalNumUniqueSiteRefs ≤
           (buildScopeOrders name oi counts refs e grand).2.2.length) ∧
       List.Pairwise (fun a b => a.totalNumUniqueSiteRefs ≤ b.totalNumUniqueSiteRefs)
         (buildScopeOrders name oi counts refs e grand).1) := by
  intro counts
  induction counts with
  | nil =>
      intro refs oi e grand hnd hmem _
      refine ⟨hnd, hmem, le_refl _, ?_, ?_⟩
      · intro r hr
        simp [buildScopeOrders] at hr
      · simp [buildScopeOrders]
  | cons oc cs ih =>
      intro refs oi e grand hnd hmem href
      cases refs with
      | nil =>
          refine ⟨hnd, hmem, le_refl _, ?_, ?_⟩
          · intro r hr
            simp [buildScopeOrders] at hr
          · simp [buildScopeOrders]
      | cons orr rs =>
          have hndg1 : (dedupUnion grand
              (uniqueSorted ((orr.map (fun p => p.2)).flatten))).Nodup :=
            dedupUnion_nodup _ _ hnd
          have hmemg1 : ∀ x ∈ dedupUnion grand
              (uniqueSorted ((orr.map (fun p => p.2)).flatten)), x ∈ R := by
            intro x hx
            cases mem_dedupUnion _ _ x hx with
            | inl h2 => exact hmem x h2
            | inr h2 =>
                rw [mem_uniqueSorted, List.mem_flatten] at h2
                obtain ⟨rl, hrl, hxrl⟩ := h2
                rw [List.mem_map] at hrl
                obtain ⟨p, hp, rfl⟩ := hrl
                exact href orr (by simp) p hp x hxrl
          have hlen1 : grand.length ≤ (dedupUnion grand
              (uniqueSorted ((orr.map (fun p => p.2)).flatten))).length :=
            length_le_dedupUnion _ _
          obtain ⟨ih1, ih2, ih3, ih4, ih5⟩ := ih rs (oi + 1) (e + oc.length) _
            hndg1 hmemg1 (fun order ho => href order (by simp [ho]))
          have hrecs : ∀ r ∈ buildCombinationRecords name (oi + 1) oc orr
              (uniqueSorted ((orr.map (fun p => p.2)).flatten))
              (dedupUnion grand (uniqueSorted ((orr.map (fun p => p.2)).flatten))) e,
              r.totalNumUniqueSiteRefs = (dedupUnion grand
                (uniqueSorted ((orr.map (fun p => p.2)).flatten))).length := by
            intro r hr
            exact (buildCombinationRecords_mem name (oi + 1) oc orr _ _ e r hr).2.2.2.2.2
          simp only [buildScopeOrders]
          refine ⟨ih1, ih2, le_trans hlen1 ih3, ?_, ?_⟩
          · intro r hr
            rw [List.mem_append] at hr
            cases hr with
            | inl h2 =>
                rw [hrecs r h2]
                exact ⟨hlen1, ih3⟩
            | inr h2 =>
                obtain ⟨hlo, hhi⟩ := ih4 r h2
                exact ⟨le_trans hlen1 hlo, hhi⟩
          · rw [List.pairwise_append]
            refine ⟨?_, ih5, ?_⟩
            · exact List.pairwise_of_forall_mem_list (fun a ha b hb => by
                rw [hrecs a ha, hrecs b hb])
            · intro a ha b hb
              rw [hrecs a ha]
              exact (ih4 b hb).1

theorem buildScopes_grand (R : Finset String) :
    ∀ (dict : List (String × MatcherOut)) (e : Nat) (grand : List String),
      grand.Nodup → (∀ x ∈ grand, x ∈ R) →
      (∀ ent ∈ dict, ∀ order ∈ ent.2.2, ∀ p ∈ order, ∀ x ∈ p.2, x ∈ R) →
      ((buildScopes dict e grand).2.2.Nodup ∧
       (∀ x ∈ (buildScopes dict e grand).2.2, x ∈ R) ∧
       grand.length ≤ (buildScopes dict e grand).2.2.length ∧
       (∀ r ∈ (buildScopes dict e grand).1,
         grand.length ≤ r.totalNumUniqueSiteRefs ∧
         r.totalNumUniqueSiteRefs ≤ (buildScopes dict e grand).2.2.length) ∧
       List.Pairwise (fun a b => a.totalNumUniqueSiteRefs ≤ b.totalNumUniqueSiteRefs)
         (buildScopes dict e grand).1) := by
  intro dict
  induction dict with
  | nil =>
      intro e grand hnd hmem _
      refine ⟨hnd, hmem, le_refl _, ?_, ?_⟩
      · intro r hr
        simp [buildScopes] at hr
      · simp [buildScopes]
  | cons ent rest ih =>
      intro e grand hnd hmem hdict
      obtain ⟨name, out⟩ := ent
      obtain ⟨o1, o2, o3, o4, o5⟩ := buildScopeOrders_grand R name out.1 out.2 0 e
        grand hnd hmem (fun order ho => hdict (name, out) (by simp) order ho)
      obtain ⟨ih1, ih2, ih3, ih4, ih5⟩ := ih (buildScopeOrders name 0 out.1 out.2 e grand).2.1
        (buildScopeOrders name 0 out.1 out.2 e grand).2.2 o1 o2
        (fun ent2 hent2 => hdict ent2 (by simp [hent2]))
      simp only [buildScopes]
      refine ⟨ih1, ih2, le_trans o3 ih3, ?_, ?_⟩
      · intro r hr
        rw [List.mem_append] at hr
        cases hr with
        | inl h2 =>
            obtain ⟨hlo, hhi⟩ := o4 r h2
            exact ⟨hlo, le_trans hhi ih3⟩
        | inr h2 =>
            obtain ⟨hlo, hhi⟩ := ih4 r h2
            exact ⟨le_trans o3 hlo, hhi⟩
      · rw [List.pairwise_append]
        refine ⟨o5, ih5, ?_⟩
        intro a ha b hb
        exact le_trans (o4 a ha).2 (ih4 b hb).1

theorem primaryLoop_entries (criteria : List String) (g : Option String)
    (hld : DataFrame) (combs : List (List (List String))) :
    ∀ (lst : List (String × String)) (dd : List (String × DataFrame))
      (cd : List (String × MatcherOut)) (dd' : List (String × DataFrame))
      (cd' : List (String × MatcherOut)),
      primaryLoop criteria g hld combs lst dd cd = .ok (dd', cd') →
      ((∀ ent ∈ dd', ent ∈ dd ∨ (ent.2.columns = hld.columns ∧
          ∀ row ∈ ent.2.rows, row ∈ hld.rows)) ∧
       (∀ ent ∈ cd', ent ∈ cd ∨ ∃ S : DataFrame, S.columns = hld.columns ∧
          (∀ row ∈ S.rows, row ∈ hld.rows) ∧
          get_filter_criteria_counts criteria S combs = .ok ent.2)) := by
  intro lst
  induction lst with
  | nil =>
      intro dd cd dd' cd' h
      simp only [primaryLoop] at h
      injection h with h'
      rw [Prod.mk.injEq] at h'
      obtain ⟨h1, h2⟩ := h'
      subst h1
      subst h2
      exact ⟨fun ent hent => Or.inl hent, fun ent hent => Or.inl hent⟩
  | cons p rest ih =>
      intro dd cd dd' cd' h
      obtain ⟨fname, fcrit⟩ := p
      simp only [primaryLoop] at h
      split at h
      · exact Except.noConfusion h
      · next pcol =>
          split at h
          · exact Except.noConfusion h
          · split at h
            · exact Except.noConfusion h
            · next out hout =>
                split at h
                · exact Except.noConfusion h
                · obtain ⟨ihd, ihc⟩ := ih _ _ dd' cd' h
                  constructor
                  · intro ent hent
                    cases ihd ent hent with
                    | inl h2 =>
                        cases mem_dictInsert _ _ _ _ h2 with
                        | inl h3 => exact Or.inl h3
                        | inr h3 =>
                            refine Or.inr ⟨?_, ?_⟩
                            · rw [h3]
                              rfl
                            · rw [h3]
                              intro row hrow
                              exact List.mem_of_mem_filter hrow
                    | inr h2 => exact Or.inr h2
                  · intro ent hent
                    cases ihc ent hent with
                    | inl h2 =>
                        cases mem_dictInsert _ _ _ _ h2 with
                        | inl h3 => exact Or.inl h3
                        | inr h3 =>
                            refine Or.inr ⟨dfFilterEq hld pcol fcrit, rfl, ?_, ?_⟩
                            · intro row hrow
                              exact List.mem_of_mem_filter hrow
                            · rw [h3]
                              exact hout
                    | inr h2 => exact Or.inr h2

theorem secondaryInnerLoop_entries (criteria : List String)
    (combs : List (List (List String))) (secondary : List (String × String))
    (i : Nat) (hld : DataFrame) :
    ∀ (dataDict : List (String × DataFrame)) (cd cd' : List (String × MatcherOut)),
      secondaryInnerLoop criteria combs secondary i dataDict cd = .ok cd' →
      (∀ d ∈ dataDict, d.2.columns = hld.columns ∧
        ∀ row ∈ d.2.rows, row ∈ hld.rows) →
      ∀ ent ∈ cd', ent ∈ cd ∨ ∃ S : DataFrame, S.columns = hld.columns ∧
        (∀ row ∈ S.rows, row ∈ hld.rows) ∧
        get_filter_criteria_counts criteria S combs = .ok ent.2 := by
  intro dataDict
  induction dataDict with
  | nil =>
      intro cd cd' h _
      simp only [secondaryInnerLoop] at h
      injection h with h'
      subst h'
      exact fun ent hent => Or.inl hent
  | cons p rest ih =>
      intro cd cd' h hdata
      obtain ⟨pname, pdata⟩ := p
      simp only [secondaryInnerLoop] at h
      split at h
      · exact Except.noConfusion h
      · next nt hstep =>
          split at h
          · exact Except.noConfusion h
          · next out hout =>
              split at h
              · exact Except.noConfusion h
              · have hstepok := secondaryScopeStep_ok secondary i pname pdata
                  nt.1 nt.2 hstep
                have hpdata := hdata (pname, pdata) (by simp)
                intro ent hent
                cases ih _ cd' h (fun d hd => hdata d (by simp [hd])) ent hent with
                | inl h2 =>
                    cases mem_dictInsert _ _ _ _ h2 with
                    | inl h3 => exact Or.inl h3
                    | inr h3 =>
                        refine Or.inr ⟨nt.2, ?_, ?_, ?_⟩
                        · rw [hstepok.2.1]
                          exact hpdata.1
                        · intro row hrow
                          exact hpdata.2 row (hstepok.2.2 row hrow)
                        · rw [h3]
                          exact hout
                | inr h2 => exact Or.inr h2

theorem secondaryOuterLoop_entries (criteria : List String)
    (combs : List (List (List String))) (secondary : List (String × String))
    (dataDict : List (String × DataFrame)) (hld : DataFrame) :
    ∀ (idxs : List Nat) (cd cd' : List (String × MatcherOut)),
      secondaryOuterLoop criteria combs secondary dataDict idxs cd = .ok cd' →
      (∀ d ∈ dataDict, d.2.columns = hld.columns ∧
        ∀ row ∈ d.2.rows, row ∈ hld.rows) →
      ∀ ent ∈ cd', ent ∈ cd ∨ ∃ S : DataFrame, S.columns = hld.columns ∧
        (∀ row ∈ S.rows, row ∈ hld.rows) ∧
        get_filter_criteria_counts criteria S combs = .ok ent.2 := by
  intro idxs
  induction idxs with
  | nil =>
      intro cd cd' h _
      simp only [secondaryOuterLoop] at h
      injection h with h'
      subst h'
      exact fun ent hent => Or.inl hent
  | cons i rest ih =>
      intro cd cd' h hdata
      simp only [secondaryOuterLoop] at h
      split at h
      · exact Except.noConfusion h
      · next cdMid hInner =>
          intro ent hent
          cases ih cdMid cd' h hdata ent hent with
          | inl h2 =>
              exact secondaryInnerLoop_entries criteria combs secondary i hld
                dataDict cd cdMid hInner hdata ent h2
          | inr h2 => exact Or.inr h2

theorem runAggregation_entries (criteria : List String) (g : Option String)
    (hld : DataFrame) (primary secondary : List (String × String))
    (combs : List (List (List String))) (res : AggResult)
    (h : runAggregation criteria g hld primary secondary combs = .ok res) :
    (∀ ent ∈ res.countsDict, ∃ S : DataFrame, S.columns = hld.columns ∧
      (∀ row ∈ S.rows, row ∈ hld.rows) ∧
      get_filter_criteria_counts criteria S combs = .ok ent.2) ∧
    res.statsRecords = construct_count_statistics_dataframe res.countsDict := by
  unfold runAggregation at h
  split at h
  · exact Except.noConfusion h
  · next rootOut hroot =>
      split at h
      · exact Except.noConfusion h
      · split at h
        · exact Except.noConfusion h
        · next dicts hprim =>
            split at h
            · exact Except.noConfusion h
            · next countsDict hsec =>
                injection h with h'
                subst h'
                obtain ⟨hpd, hpc⟩ := primaryLoop_entries criteria g hld combs primary
                  [("# Sites relevant CE", hld)] [("# Sites relevant CE", rootOut)]
                  dicts.1 dicts.2 (by rw [← hprim])
                have hdata : ∀ d ∈ dicts.1, d.2.columns = hld.columns ∧
                    ∀ row ∈ d.2.rows, row ∈ hld.rows := by
                  intro d hd
                  cases hpd d hd with
                  | inl h2 =>
                      rw [List.mem_singleton] at h2
                      rw [h2]
                      exact ⟨rfl, fun row hrow => hrow⟩
                  | inr h2 => exact h2
                refine ⟨?_, rfl⟩
                intro ent hent
                cases secondaryOuterLoop_entries criteria combs secondary dicts.1 hld
                    (List.range (secondary.length + 1)) dicts.2 countsDict hsec hdata
                    ent hent with
                | inl h2 =>
                    cases hpc ent h2 with
                    | inl h3 =>
                        rw [List.mem_singleton] at h3
                        refine ⟨hld, rfl, fun row hrow => hrow, ?_⟩
                        rw [h3]
                        exact hroot
                    | inr h3 => exact h3
                | inr h2 => exact h2

/-- C1 (amended): the grand deduplicated identifier set reported in the
flattened output ("Total num unique site refs" / "Corresponding total
unique site ref nums") is a single set maintained globally across the whole
run — cumulative over all scopes and orders processed so far (combinations.py
lines 322 and 360: initialized once, never reset between scopes) — so the
reported sizes are monotone non-decreasing along the flattened output, and
each reported size is bounded by the row count of the root scope's
dataframe `hld_df` (not by the row count of the record's own scope). -/
theorem grand_total_cumulative_bound (criteria : List String) (g : Option String)
    (hld : DataFrame) (fcol : String) (primary secondary : List (String × String))
    (res : AggResult)
    (h : (get_count_statistics_filter_criteria criteria g hld fcol primary
        secondary false).1 = .ok res) :
    (∀ r ∈ res.statsRecords, r.totalNumUniqueSiteRefs ≤ hld.rows.length) ∧
    List.Pairwise (fun a b => a.totalNumUniqueSiteRefs ≤ b.totalNumUniqueSiteRefs)
      res.statsRecords := by
  have hrun := pipeline_ok_elim criteria g hld fcol primary secondary res h
  obtain ⟨hent, hrecs⟩ := runAggregation_entries criteria g hld primary secondary
    _ res hrun
  have hdictR : ∀ ent ∈ res.countsDict, ∀ order ∈ ent.2.2, ∀ p ∈ order, ∀ x ∈ p.2,
      x ∈ (hld.rows.map (hldRefOf hld.columns)).toFinset := by
    intro ent hentd order horder p hp x hx
    obtain ⟨S, hcols, hrows, hok⟩ := hent ent hentd
    have hx2 := matcher_refs_mem criteria S _ ent.2 hok order horder p hp x hx
    rw [List.mem_map] at hx2
    obtain ⟨row, hrow, rfl⟩ := hx2
    rw [List.mem_toFinset, hcols]
    exact List.mem_map_of_mem _ (hrows row hrow)
  obtain ⟨b1, b2, _, b4, b5⟩ := buildScopes_grand
    ((hld.rows.map (hldRefOf hld.columns)).toFinset) res.countsDict 1 []
    List.nodup_nil (by intro x hx; cases hx) hdictR
  have hcard : (buildScopes res.countsDict 1 []).2.2.length ≤
      (hld.rows.map (hldRefOf hld.columns)).toFinset.card :=
    nodup_length_le_card _ _ b1 b2
  have hRle : (hld.rows.map (hldRefOf hld.columns)).toFinset.card ≤
      hld.rows.length := by
    calc (hld.rows.map (hldRefOf hld.columns)).toFinset.card
        ≤ (hld.rows.map (hldRefOf hld.columns)).length := List.toFinset_card_le _
      _ = hld.rows.length := List.length_map _ _
  constructor
  · intro r hr
    rw [hrecs] at hr
    exact le_trans (b4 r hr).2 (le_trans hcard hRle)
  · rw [hrecs]
    exact b5

/-- Counterexample to C1 as stated: a run with two rows where the primary
scope "P1" holds a single row.  The record emitted for scope "P1" reports a
grand total of 2 — the grand set carried reference R1 over from the root
scope — exceeding the 1 row of scope "P1"; so the grand set is neither
maintained per scope nor bounded by the scope's own row count. -/
theorem grand_total_counterexample :
    ((get_count_statistics_filter_criteria ["A"] (some "PCol")
        (DataFrame.mk ["A", "HLD reference", "PCol", "SA", "SB"]
          [["Yes", "R1", "X", "No", "No"], ["Yes", "R2", "P1v", "No", "No"]])
        "f" [("P1", "P1v")] [("S0", "SA"), ("S1", "SB")]
        false).1.toOption.map (fun res => res.statsRecords.map
          (fun r => (r.primaryFilter, r.totalNumUniqueSiteRefs)))) =
      some [("# Sites relevant CE", 2), ("P1", 2),
        ("# Sites relevant CE + S0", 2), ("P1 + S0", 2),
        ("# Sites relevant CE + S1", 2), ("P1 + S1", 2),
        ("# Sites relevant CE + S0 + S1", 2), ("P1 + S0 + S1", 2)] ∧
    (dfFilterEq (DataFrame.mk ["A", "HLD reference", "PCol", "SA", "SB"]
        [["Yes", "R1", "X", "No", "No"], ["Yes", "R2", "P1v", "No", "No"]])
      "PCol" "P1v").rows.length = 1 := by
  constructor
  · rfl
  · rfl

/-- Witness for the amended C1 at a two-row frame. -/
theorem grand_total_cumulative_bound_witness :
    ∃ res,
      (get_count_statistics_filter_criteria ["A"] (some "PCol")
          (DataFrame.mk ["A", "HLD reference", "PCol", "SA", "SB"]
            [["Yes", "R1", "X", "No", "No"], ["Yes", "R2", "P1v", "No", "No"]])
          "f" [("P1", "P1v")] [("S0", "SA"), ("S1", "SB")] false).1 = .ok res ∧
      ∀ r ∈ res.statsRecords, r.totalNumUniqueSiteRefs ≤ 2 := by
  have hok : exceptIsOk (get_count_statistics_filter_criteria ["A"] (some "PCol")
      (DataFrame.mk ["A", "HLD reference", "PCol", "SA", "SB"]
        [["Yes", "R1", "X", "No", "No"], ["Yes", "R2", "P1v", "No", "No"]])
      "f" [("P1", "P1v")] [("S0", "SA"), ("S1", "SB")] false).1 = true := by decide
  obtain ⟨res, hres⟩ := (exceptIsOk_iff _).1 hok
  have hthm := grand_total_cumulative_bound ["A"] (some "PCol")
    (DataFrame.mk ["A", "HLD reference", "PCol", "SA", "SB"]
      [["Yes", "R1", "X", "No", "No"], ["Yes", "R2", "P1v", "No", "No"]])
    "f" [("P1", "P1v")] [("S0", "SA"), ("S1", "SB")] res hres
  exact ⟨res, hres, fun r hr => hthm.1 r hr⟩
